import Mathlib

/-!
Verification development for the normalization / invariant-enforcement core of
the `mcp-azure-arch` repository (`src/lib/normalize.ts`, `src/lib/invariants.ts`,
plus the DR-capable variant of `normalizeModel`).  The TypeScript sources are
shallowly embedded: JavaScript strings become `String`, in-place mutation
becomes explicit state passing, regular-expression tests become a small
executable pattern matcher, and the per-pass id counter becomes a threaded
`Nat`.
-/

namespace AzureArch

/-! ### JavaScript string primitives

`idSafe` in `normalize.ts` is `(s ?? "").trim().replace(/[^\w]/g, "_")`.
JS `\w` is `[A-Za-z0-9_]`; JS `trim` removes the JS whitespace set from both
ends; the `replace` substitutes an underscore for every non-word character. -/

def isWordChar (c : Char) : Bool :=
  (97 ≤ c.toNat && c.toNat ≤ 122) || (65 ≤ c.toNat && c.toNat ≤ 90) ||
    (48 ≤ c.toNat && c.toNat ≤ 57) || c.toNat = 95

/-- The JavaScript whitespace class (`\s` / `String.prototype.trim`). -/
def isJsSpace (c : Char) : Bool :=
  c.toNat ∈ [32, 9, 10, 13, 11, 12, 0xa0, 0xfeff, 0x1680,
    0x2000, 0x2001, 0x2002, 0x2003, 0x2004, 0x2005, 0x2006,
    0x2007, 0x2008, 0x2009, 0x200a, 0x2028, 0x2029, 0x202f,
    0x205f, 0x3000]

def jsTrimList (cs : List Char) : List Char :=
  ((cs.dropWhile isJsSpace).reverse.dropWhile isJsSpace).reverse

/-- `normalize.ts` line 4: `(s ?? "").trim().replace(/[^\w]/g, "_")`. -/
def idSafe (s : String) : String :=
  ⟨(jsTrimList s.data).map (fun c => if isWordChar c then c else '_')⟩

/-- Decimal digits of a natural number, mirroring JS template interpolation.
Fuel-based so that it reduces inside the kernel. -/
def digitChar : Nat → Char
  | 0 => '0' | 1 => '1' | 2 => '2' | 3 => '3' | 4 => '4'
  | 5 => '5' | 6 => '6' | 7 => '7' | 8 => '8' | _ => '9'

def natDigitsAux : Nat → Nat → List Char
  | 0, _ => []
  | fuel + 1, n =>
    if n < 10 then [digitChar n]
    else natDigitsAux fuel (n / 10) ++ [digitChar (n % 10)]

def natDigits (n : Nat) : List Char := natDigitsAux (n + 1) n

def natStr (n : Nat) : String := ⟨natDigits n⟩

/-- `normalize.ts` lines 6–12 (`ensureIdFactory`): the stateful per-pass id
sanitizer.  The counter `auto` is the closed-over mutable variable. -/
def ensureId (s : String) (auto : Nat) : String × Nat :=
  let z := idSafe s
  if z ≠ "" ∧ z ≠ "_" then (z, auto) else ("n" ++ natStr auto, auto + 1)

/-! ### A tiny executable regex fragment

The sources only use patterns built from literal characters, `\s*` and `.?`,
always in "search anywhere" mode (`RegExp.test` / `String.includes`). -/

inductive Pat where
  | lit (c : Char)
  | ws
  | anyOpt
deriving DecidableEq

/-- JS `.` (without the `s` flag) matches everything except line terminators. -/
def isDotChar (c : Char) : Bool :=
  c.toNat ∉ [10, 13, 0x2028, 0x2029]

/-- All suffixes reachable by consuming zero or more leading JS whitespace
characters; used to interpret `\s*`. -/
def wsSkips : List Char → List (List Char)
  | [] => [[]]
  | x :: xs => (x :: xs) :: (if isJsSpace x then wsSkips xs else [])

/-- Does the pattern match a prefix of the character list? -/
def matchPat : List Pat → List Char → Bool
  | [], _ => true
  | .lit c :: ps, cs =>
    match cs with
    | [] => false
    | x :: xs => x == c && matchPat ps xs
  | .ws :: ps, cs => (wsSkips cs).any (fun cs2 => matchPat ps cs2)
  | .anyOpt :: ps, cs =>
    matchPat ps cs ||
      (match cs with
       | [] => false
       | x :: xs => isDotChar x && matchPat ps xs)

/-- Does the pattern match anywhere in the character list (JS `test`)? -/
def searchPat (ps : List Pat) : List Char → Bool
  | [] => matchPat ps []
  | x :: xs => matchPat ps (x :: xs) || searchPat ps xs

def lits (s : String) : List Pat := s.data.map Pat.lit

/-- JS `hay.includes(needle)` / `/needle/.test(hay)` for literal needles. -/
def containsSub (hay needle : String) : Bool := searchPat (lits needle) hay.data

def lowerChar (c : Char) : Char :=
  if 65 ≤ c.toNat && c.toNat ≤ 90 then Char.ofNat (c.toNat + 32) else c

def upperChar (c : Char) : Char :=
  if 97 ≤ c.toNat && c.toNat ≤ 122 then Char.ofNat (c.toNat - 32) else c

def toLowerStr (s : String) : String := ⟨s.data.map lowerChar⟩

def toUpperStr (s : String) : String := ⟨s.data.map upperChar⟩

/-- `normalize.ts` lines 14–32 (`normType`): priority-ordered keyword
classification of a free-form resource type label. -/
def normType (t : String) : String :=
  let x := (toLowerStr t).data
  if searchPat (lits "app" ++ [Pat.ws] ++ lits "gateway") x || searchPat (lits "waf") x then
    "AppGateway"
  else if searchPat (lits "azure" ++ [Pat.ws] ++ lits "firewall") x
      || searchPat (lits "firewall") x then "AzureFirewall"
  else if searchPat (lits "vpn") x then "VpnGateway"
  else if searchPat (lits "express" ++ [Pat.anyOpt] ++ lits "route") x then
    "ExpressRouteGateway"
  else if searchPat (lits "bastion") x then "Bastion"
  else if searchPat (lits "app" ++ [Pat.ws] ++ lits "service") x
      || searchPat (lits "web" ++ [Pat.ws] ++ lits "app") x then "AppService"
  else if searchPat (lits "sql") x || searchPat (lits "database") x then "SqlDb"
  else if searchPat (lits "cosmos") x then "CosmosDb"
  else if searchPat (lits "storage") x then "Storage"
  else if searchPat (lits "key" ++ [Pat.anyOpt] ++ lits "vault") x
      || searchPat (lits "kv") x then "KeyVault"
  else if searchPat (lits "traffic" ++ [Pat.anyOpt] ++ lits "manager") x then
    "TrafficManager"
  else if searchPat (lits "nsg") x then "NetworkSecurityGroup"
  else if searchPat (lits "route") x then "RouteTable"
  else if searchPat (lits "private" ++ [Pat.ws] ++ lits "endpoint") x then
    "PrivateEndpoint"
  else if searchPat (lits "private" ++ [Pat.ws] ++ lits "dns") x then
    "PrivateDnsZone"
  else "AppService"

example : normType "app gateway" = "AppGateway" := by decide
example : normType "Database" = "SqlDb" := by decide
example : normType "NetworkSecurityGroup" = "AppService" := by decide
example : normType "nsg" = "NetworkSecurityGroup" := by decide
example : idSafe " a-b " = "a_b" := by decide
example : ensureId "  " 0 = ("n0", 1) := by decide
example : ensureId "-" 3 = ("n3", 4) := by decide

/-! ### Data model (`src/lib/types.ts`)

JS objects are embedded as structures.  Optional string-valued fields use `""`
for "absent" wherever the source only ever tests them for truthiness or
defaults them to `""`; `Model.hub` and `Model.region` keep `Option` because
the source distinguishes `undefined` from `""` there (`?? / if (!m.hub)`). -/

structure Subnet where
  id : String := ""
  cidr : String := ""
  purpose : String := ""
  routeTableId : String := ""
deriving DecidableEq, Repr

structure VNet where
  id : String := ""
  label : String := ""
  cidr : String := ""
  kind : String := ""
  subnets : List Subnet := []
deriving DecidableEq, Repr

structure Peering where
  fromVnetId : String := ""
  toVnetId : String := ""
deriving DecidableEq, Repr

/-- `Edge` of `types.ts`; `from`/`to` are Lean keywords, hence `fromId`/`toId`. -/
structure Edge where
  fromId : String := ""
  toId : String := ""
  kind : String := ""
deriving DecidableEq, Repr

/-- The resource union of `types.ts`, flattened to the fields the normalization
and enforcement code reads or writes (`type` is a Lean keyword, hence `rtype`;
kind-specific constant attributes such as `sku` are never consulted again after
creation and are not modelled). -/
structure Resource where
  id : String := ""
  rtype : String := ""
  label : String := ""
  targetResourceType : String := ""
  targetResourceId : String := ""
  subnetId : String := ""
  zoneName : String := ""
  links : List String := []
deriving DecidableEq, Repr

structure Model where
  region : Option String := none
  vnets : List VNet := []
  hubs : List VNet := []
  hub : Option VNet := none
  spokes : List VNet := []
  peerings : List Peering := []
  edges : List Edge := []
  resources : List Resource := []
  notes : List String := []
deriving DecidableEq, Repr

/-- The flag record consumed by `enforceAzureInvariants` (`invariants.ts` 6–14). -/
structure Flags where
  waf : Bool := false
  vpn : Bool := false
  firewall : Bool := false
  bastion : Bool := false
  privateEndpointSql : Bool := false
  privateEndpointStorage : Bool := false
  privateEndpointKeyVault : Bool := false
deriving DecidableEq, Repr

structure EnforcePE where
  sql : Bool := false
  storage : Bool := false
  kv : Bool := false
deriving DecidableEq, Repr

/-- The options record of `normalizeModel` (`normalize.ts` 87–94). -/
structure Options where
  preferredRegion : Option String := none
  enforceWaf : Bool := false
  enforceVpn : Bool := false
  enforceFirewall : Bool := false
  enforceBastion : Bool := false
  enforcePE : EnforcePE := {}
deriving DecidableEq, Repr

structure InvariantResult where
  warnings : List String := []
  fixes : List String := []
deriving DecidableEq, Repr

/-! ### `src/lib/invariants.ts` -/

/-- `invariants.ts` 27–31. -/
def inferPurpose (id : String) : String :=
  if id = "AppGatewaySubnet" then "public" else "infra"

def hasSubnet (v : VNet) (name : String) : Bool :=
  v.subnets.any (fun s => s.id == name)

/-- The mutation a single `ensureSubnet` pass performs on one hub
(`invariants.ts` 19–26); also the WAF spoke-subnet addition (57–64), whose
inline `purpose: "public"` coincides with `inferPurpose "AppGatewaySubnet"`. -/
def addSubnetIfMissing (name cidr : String) (v : VNet) : VNet :=
  if hasSubnet v name then v
  else { v with subnets := v.subnets ++
          [{ id := name, cidr := cidr, purpose := inferPurpose name }] }

/-- Fix messages produced by one `ensureSubnet` call, in hub order. -/
def ensureSubnetMsgs (name cidr : String) (hubs : List VNet) : List String :=
  (hubs.filter (fun hb => ¬ hasSubnet hb name)).map
    (fun hb => "added subnet " ++ name ++ " in hub " ++ hb.id ++ " (" ++ cidr ++ ")")

def hasType (rs : List Resource) (t : String) : Bool :=
  rs.any (fun r => r.rtype == t)

def idOfType (rs : List Resource) (t : String) : Option String :=
  ((rs.filter (fun r => r.rtype == t)).head?).map (fun r => r.id)

def wafFixMsgs (spokes : List VNet) : List String :=
  (spokes.filter (fun sp => ¬ hasSubnet sp "AppGatewaySubnet")).map
    (fun sp => "added AppGatewaySubnet in spoke " ++ sp.id ++ " (10.1.3.0/24)")

def wafWarnMsgs (spokes : List VNet) : List String :=
  (spokes.filter (fun sp => ¬ hasSubnet sp "AppGatewaySubnet")).map
    (fun sp => "AppGatewaySubnet in " ++ sp.id ++ " uses default CIDR (10.1.3.0/24) — review")

def rtIdOf (sp : VNet) : String := "rt-" ++ sp.id ++ "-default"

def rtResource (sp : VNet) : Resource :=
  { rtype := "RouteTable", id := rtIdOf sp, label := "RT " ++ sp.id ++ " → FW" }

/-- `invariants.ts` 101–103: point the spoke app/data subnets at the route
table (performed unconditionally each pass). -/
def attachRT (sp : VNet) : VNet :=
  { sp with subnets := sp.subnets.map (fun sn =>
      if sn.id = "sn_app" ∨ sn.id = "sn_data" then { sn with routeTableId := rtIdOf sp }
      else sn) }

/-- `invariants.ts` 90–100: per-spoke default-route table creation.  The
resource list threads through the loop; fix/warn messages come out in spoke
order. -/
def udrFold : List VNet → List Resource → List Resource × List String × List String
  | [], rs => (rs, [], [])
  | sp :: rest, rs =>
    let rtId := rtIdOf sp
    if rs.any (fun r => r.rtype == "RouteTable" && r.id == rtId) then udrFold rest rs
    else
      let q := udrFold rest (rs ++ [rtResource sp])
      (q.1, ("added RouteTable for " ++ sp.id ++ " default route to Firewall") :: q.2.1,
       ("nextHopIpAddress for " ++ rtId ++ " is default (10.0.1.4) — review") :: q.2.2)

/-- JS `z.replace(/\./g, "-")`. -/
def replaceAllChar (s : String) (a b : Char) : String :=
  ⟨s.data.map (fun c => if c = a then b else c)⟩

def pdzZone (z : String) : Resource :=
  { rtype := "PrivateDnsZone", id := "pdz-" ++ replaceAllChar z '.' '-',
    label := z, zoneName := z }

/-- `invariants.ts` 80–85: create each needed Private DNS zone if absent. -/
def pdzFold : List String → List Resource → List Resource × List String
  | [], rs => (rs, [])
  | z :: rest, rs =>
    if rs.any (fun r => r.rtype == "PrivateDnsZone" && r.zoneName == z) then pdzFold rest rs
    else
      let q := pdzFold rest (rs ++ [pdzZone z])
      (q.1, ("added PrivateDnsZone " ++ z) :: q.2)

def pipResource : Resource :=
  { rtype := "PublicIP", id := "pip-agw", label := "PIP (AppGW)" }

/-- JS truthy `label || id`. -/
def labelOrId (r : Resource) : String := if r.label ≠ "" then r.label else r.id

/-- `invariants.ts` 108: `/agw/i.test(label || id)` over `PublicIP` resources. -/
def hasAgwPip (rs : List Resource) : Bool :=
  rs.any (fun r => r.rtype == "PublicIP" && containsSub (toLowerStr (labelOrId r)) "agw")

/-- Net effect of one enforcement pass on a single hub VNet. -/
def hubFix (fl : Flags) (v : VNet) : VNet :=
  let v1 := if fl.vpn then addSubnetIfMissing "GatewaySubnet" "10.0.0.32/27" v else v
  let v2 := if fl.firewall then addSubnetIfMissing "AzureFirewallSubnet" "10.0.1.0/26" v1 else v1
  if fl.bastion then addSubnetIfMissing "AzureBastionSubnet" "10.0.1.64/26" v2 else v2

/-- Net effect of one enforcement pass on a single spoke VNet. -/
def spokeFix (fl : Flags) (v : VNet) : VNet :=
  let v1 := if fl.waf then addSubnetIfMissing "AppGatewaySubnet" "10.1.3.0/24" v else v
  if fl.firewall then attachRT v1 else v1

/-- The hub list the enforcer operates on (`invariants.ts` 18). -/
def enfHubs (m : Model) : List VNet :=
  if m.hubs ≠ [] then m.hubs else (match m.hub with | some h => [h] | none => [])

/-- The three hub-side `ensureSubnet` passes (`invariants.ts` 38–53): updated
hub list plus fix messages. -/
def hubStages (fl : Flags) (hubs0 : List VNet) : List VNet × List String :=
  let f1 := if fl.vpn then ensureSubnetMsgs "GatewaySubnet" "10.0.0.32/27" hubs0 else []
  let hubs1 := if fl.vpn then hubs0.map (addSubnetIfMissing "GatewaySubnet" "10.0.0.32/27")
               else hubs0
  let f2 := if fl.firewall then ensureSubnetMsgs "AzureFirewallSubnet" "10.0.1.0/26" hubs1 else []
  let hubs2 := if fl.firewall then
                 hubs1.map (addSubnetIfMissing "AzureFirewallSubnet" "10.0.1.0/26")
               else hubs1
  let f3 := if fl.bastion then ensureSubnetMsgs "AzureBastionSubnet" "10.0.1.64/26" hubs2 else []
  let hubs3 := if fl.bastion then
                 hubs2.map (addSubnetIfMissing "AzureBastionSubnet" "10.0.1.64/26")
               else hubs2
  (hubs3, f1 ++ f2 ++ f3)

/-- The WAF spoke pass (`invariants.ts` 56–64): updated spokes, fixes, warns. -/
def wafStage (fl : Flags) (spokes0 : List VNet) : List VNet × List String × List String :=
  if fl.waf then
    (spokes0.map (addSubnetIfMissing "AppGatewaySubnet" "10.1.3.0/24"),
     wafFixMsgs spokes0, wafWarnMsgs spokes0)
  else (spokes0, [], [])

def needsPDZb (fl : Flags) : Bool :=
  fl.privateEndpointSql || fl.privateEndpointStorage || fl.privateEndpointKeyVault

/-- `invariants.ts` 74–78. -/
def zonesOf (fl : Flags) : List String :=
  (if fl.privateEndpointSql then ["privatelink.database.windows.net"] else []) ++
  (if fl.privateEndpointStorage then ["privatelink.blob.core.windows.net"] else []) ++
  (if fl.privateEndpointKeyVault then ["privatelink.vaultcore.azure.net"] else [])

/-- `invariants.ts` 80–85 applied to the model resources. -/
def pzRes (m : Model) (fl : Flags) : List Resource × List String :=
  pdzFold (zonesOf fl) m.resources

/-- `invariants.ts` 90–105: route tables after the WAF pass (resource list and
messages); a no-op triple when the firewall flag is off. -/
def udRes (m : Model) (fl : Flags) : List Resource × List String × List String :=
  if fl.firewall then udrFold (wafStage fl m.spokes).1 (pzRes m fl).1
  else ((pzRes m fl).1, [], [])

/-- `invariants.ts` 108. -/
def pipNeededOf (m : Model) (fl : Flags) : Bool :=
  hasType (udRes m fl).1 "AppGateway" && ! hasAgwPip (udRes m fl).1

def resFinal (m : Model) (fl : Flags) : List Resource :=
  if pipNeededOf m fl then (udRes m fl).1 ++ [pipResource] else (udRes m fl).1

def spokesFinal (m : Model) (fl : Flags) : List VNet :=
  if fl.firewall then (wafStage fl m.spokes).1.map attachRT else (wafStage fl m.spokes).1

/-- `invariants.ts` 6–118 (`enforceAzureInvariants`).  In-place mutation of the
hub list (`m.hubs` if non-empty, else the single `m.hub`), the spokes and the
resource list becomes an updated model; the audit trail is returned alongside. -/
def enforceAzureInvariants (m : Model) (fl : Flags) : Model × InvariantResult :=
  let hubs0 := enfHubs m
  let hs := hubStages fl hubs0
  let vpnW := if fl.vpn ∧ ¬ hasType m.resources "VpnGateway" then
      ["VPN requested but VpnGateway missing (auto-added)"] else []
  let fwW := if fl.firewall ∧ ¬ hasType m.resources "AzureFirewall" then
      ["Firewall requested but AzureFirewall missing (consider adding PIP and UDR)"] else []
  let baW := if fl.bastion ∧ ¬ hasType m.resources "Bastion" then
      ["Bastion requested but resource missing"] else []
  let ws := wafStage fl m.spokes
  let wafWB := if fl.waf ∧ ¬ hasType m.resources "AppGateway" then
      ["WAF requested but AppGateway missing (auto-added)"] else []
  let pzW := if needsPDZb fl then
      ["Private Endpoint uses require Private DNS zones and zone links to VNets."] else []
  let pipF := if pipNeededOf m fl then ["added PublicIP for App Gateway"] else []
  let pzW2 := if needsPDZb fl then
      ["Private Endpoint を使う場合、Private DNS ゾーンとVNetリンク構成が必要。"] else []
  ({ m with
     hubs := if m.hubs ≠ [] then hs.1 else m.hubs,
     hub := if m.hubs ≠ [] then m.hub else hs.1.head?,
     spokes := spokesFinal m fl,
     resources := resFinal m fl },
   { warnings := vpnW ++ fwW ++ baW ++ ws.2.2 ++ wafWB ++ pzW ++ (udRes m fl).2.2 ++ pzW2,
     fixes := hs.2 ++ ws.2.1 ++ (pzRes m fl).2 ++ (udRes m fl).2.1 ++ pipF })

/-! ### `autoWireEdges` (`normalize.ts` 34–83) -/

def jsTruthy : Option String → Bool
  | some s => s ≠ ""
  | none => false

/-- JS `a || b` on possibly-undefined strings. -/
def jsOrOpt (a b : Option String) : Option String := if jsTruthy a then a else b

/-- The local `add` helper: skip falsy endpoints, dedupe on `(from, to)`. -/
def addEdge (edges : List Edge) (fromO toO : Option String) (kind : String) : List Edge :=
  if jsTruthy fromO ∧ jsTruthy toO then
    let f := fromO.getD ""
    let t := toO.getD ""
    if edges.any (fun e => e.fromId == f && e.toId == t) then edges
    else edges ++ [{ fromId := f, toId := t, kind := kind }]
  else edges

def autoWireEdges (rs : List Resource) (edges0 : List Edge) : List Edge :=
  let agw := idOfType rs "AppGateway"
  let app := idOfType rs "AppService"
  let sql := idOfType rs "SqlDb"
  let st := idOfType rs "Storage"
  let afw := idOfType rs "AzureFirewall"
  let vpn := idOfType rs "VpnGateway"
  let kv := idOfType rs "KeyVault"
  let tm := idOfType rs "TrafficManager"
  let peList := rs.filter (fun r => r.rtype == "PrivateEndpoint")
  let e1 := addEdge edges0 agw app "l7"
  let e2 := addEdge e1 app sql "l7"
  let e3 := addEdge e2 app st "l7"
  let e4 := addEdge e3 app kv "l7"
  let e5 := peList.foldl
    (fun es pe =>
      let target := toLowerStr pe.targetResourceType
      let targetId :=
        if containsSub target "sql" then sql
        else if containsSub target "storage" then st
        else if containsSub target "key" then kv
        else none
      addEdge es (some pe.id) targetId "l7") e4
  let e6 := if jsTruthy tm then addEdge e5 tm (jsOrOpt agw app) "l7" else e5
  let e7 := addEdge e6 afw (jsOrOpt agw app) "l3"
  if jsTruthy vpn then
    let ea := addEdge e7 (some "onprem") vpn "l3"
    let eb := if jsTruthy afw then addEdge ea vpn afw "l3" else ea
    addEdge eb (jsOrOpt afw vpn) (jsOrOpt agw app) "l3"
  else e7

/-! ### `normalizeModel` (`normalize.ts` 85–277)

The per-pass `ensureId` counter and the two rename maps are threaded
explicitly.  JS `Map.set` overwrites, so the association lists prepend and
`mapGet` returns the first (latest) binding. -/

def mapGet (mp : List (String × String)) (k : String) : Option String :=
  (mp.find? (fun p => p.1 == k)).map (fun p => p.2)

/-- `map.get(x) || ensureId(x)` (`normalize.ts` 142–143, 150, 156). -/
def remapRef (mp : List (String × String)) (s : String) (n : Nat) : String × Nat :=
  match mapGet mp s with
  | some v => if v ≠ "" then (v, n) else ensureId s n
  | none => ensureId s n

/-- `normalize.ts` 131–135: rename the subnets of one VNet, recording changed
ids in the subnet map. -/
def renameSubnets : List Subnet → List (String × String) → Nat →
    List Subnet × List (String × String) × Nat
  | [], smap, n => ([], smap, n)
  | sn :: rest, smap, n =>
    let p := ensureId sn.id n
    let smap1 := if sn.id ≠ "" ∧ sn.id ≠ p.1 then (sn.id, p.1) :: smap else smap
    let q := renameSubnets rest smap1 p.2
    ({ sn with id := p.1 } :: q.1, q.2.1, q.2.2)

/-- `normalize.ts` 126–136: rename all VNets and their subnets. -/
def renameVnets : List VNet → List (String × String) → List (String × String) → Nat →
    List VNet × List (String × String) × List (String × String) × Nat
  | [], vmap, smap, n => ([], vmap, smap, n)
  | v :: rest, vmap, smap, n =>
    let p := ensureId v.id n
    let vmap1 := if v.id ≠ "" ∧ v.id ≠ p.1 then (v.id, p.1) :: vmap else vmap
    let q := renameSubnets v.subnets smap p.2
    let w := renameVnets rest vmap1 q.2.1 q.2.2
    ({ v with id := p.1, subnets := q.1 } :: w.1, w.2.1, w.2.2.1, w.2.2.2)

/-- `normalize.ts` 139–145: follow the VNet renames in the peerings. -/
def remapPeerings : List Peering → List (String × String) → Nat → List Peering × Nat
  | [], _, n => ([], n)
  | p :: rest, vmap, n =>
    let f := remapRef vmap p.fromVnetId n
    let t := remapRef vmap p.toVnetId f.2
    let q := remapPeerings rest vmap t.2
    ({ p with fromVnetId := f.1, toVnetId := t.1 } :: q.1, q.2)

def remapLinks : List String → List (String × String) → Nat → List String × Nat
  | [], _, n => ([], n)
  | lk :: rest, vmap, n =>
    let v := remapRef vmap lk n
    let q := remapLinks rest vmap v.2
    (v.1 :: q.1, q.2)

/-- `normalize.ts` 148–159: update `subnetId` references and the VNet links of
resources whose (raw, still unnormalized) type is `PrivateDnsZone`. -/
def remapResourceRefs : List Resource → List (String × String) → List (String × String) →
    Nat → List Resource × Nat
  | [], _, _, n => ([], n)
  | r :: rest, smap, vmap, n =>
    let s := if r.subnetId ≠ "" then remapRef smap r.subnetId n else (r.subnetId, n)
    let lk := if r.rtype = "PrivateDnsZone" then remapLinks r.links vmap s.2 else (r.links, s.2)
    let q := remapResourceRefs rest smap vmap lk.2
    ({ r with subnetId := s.1, links := lk.1 } :: q.1, q.2)

/-- `normalize.ts` 186–190: sanitize resource ids and canonicalize types. -/
def retypeResources : List Resource → Nat → List Resource × Nat
  | [], n => ([], n)
  | r :: rest, n =>
    let p := ensureId r.id n
    let q := retypeResources rest p.2
    ({ r with id := p.1, rtype := normType r.rtype } :: q.1, q.2)

def resKey (r : Resource) : String := r.rtype ++ "::" ++ r.label

/-- `normalize.ts` 192–199: first-seen-wins dedup on `type::label`. -/
def dedupResources : List Resource → List String → List Resource
  | [], _ => []
  | r :: rest, seen =>
    if seen.contains (resKey r) then dedupResources rest seen
    else r :: dedupResources rest (resKey r :: seen)

def agwResource : Resource :=
  { rtype := "AppGateway", id := "agw", label := "App Gateway (WAF_v2)" }

def vpngwResource : Resource :=
  { rtype := "VpnGateway", id := "vpngw", label := "VPN Gateway" }

/-- `normalize.ts` 235–246 (`ensurePE`): add a Private Endpoint only when the
target resource type is present (`if (!targetId) return` — `targetId` falsy
means no resource of that type, or an empty id). -/
def ensurePEAdd (rs : List Resource) (peId targetType : String) : List Resource :=
  let tid := (idOfType rs targetType).getD ""
  if tid = "" then rs
  else rs ++ [{ rtype := "PrivateEndpoint", id := peId, label := "PE → " ++ targetType,
                targetResourceType := targetType, targetResourceId := tid,
                subnetId := "sn_data" }]

def hasPEFor (rs : List Resource) (needle : String) : Bool :=
  rs.any (fun r => r.rtype == "PrivateEndpoint" &&
    containsSub (toLowerStr r.targetResourceType) needle)

/-- `normalize.ts` 99: `opts?.preferredRegion ?? m.region ?? "japaneast"`. -/
def regionOf (m : Model) (opts : Options) : Option String :=
  match opts.preferredRegion with
  | some r => some r
  | none => match m.region with | some r => some r | none => some "japaneast"

/-- `normalize.ts` 112–123: choose the aggregation source. -/
def aggVnets (m : Model) : List VNet :=
  if m.vnets ≠ [] then m.vnets
  else if m.hubs ≠ [] ∨ m.spokes ≠ [] then m.hubs ++ m.spokes
  else (match m.hub with | some h => [h] | none => [])

/-- Did aggregation fall back to `[m.hub, ...spokes]` (`normalize.ts` 118–119)?
In that case the legacy `m.hub` field aliases the first aggregated VNet. -/
def isCase3 (m : Model) : Bool :=
  m.vnets = [] ∧ m.hubs = [] ∧ m.spokes = [] ∧ m.hub.isSome

/-- `normalize.ts` 169–183: pick the single-hub compatibility value, fall back
to a synthesized dummy hub when no hub exists at all.  Returns
`(hub, hubs, vnets, counter)`. -/
def selectHub (hub0 : Option VNet) (allVnets1 hubsArr spokesArr : List VNet) (n : Nat) :
    Option VNet × List VNet × List VNet × Nat :=
  if hubsArr ≠ [] then (hubsArr.head?, hubsArr, allVnets1, n)
  else match hub0 with
    | some h => (some h, hubsArr, allVnets1, n)
    | none =>
      let d := ensureId "hub" n
      let dummy : VNet := { id := d.1, label := "Hub", cidr := "10.0.0.0/16",
                            kind := "hub", subnets := [] }
      (some dummy, [dummy], dummy :: spokesArr, d.2)

/-- `normalize.ts` 212–221. -/
def res4Of (opts : Options) (rs : List Resource) : List Resource :=
  if opts.enforceWaf ∧ ¬ hasType rs "AppGateway" then rs ++ [agwResource] else rs

/-- `normalize.ts` 224–232. -/
def res5Of (opts : Options) (rs : List Resource) : List Resource :=
  if opts.enforceVpn ∧ ¬ hasType rs "VpnGateway" then rs ++ [vpngwResource] else rs

/-- `normalize.ts` 248–250. -/
def res6Of (opts : Options) (rs : List Resource) : List Resource :=
  if opts.enforcePE.sql ∧ ¬ hasPEFor rs "sql" then ensurePEAdd rs "pe_sql" "SqlDb" else rs

/-- `normalize.ts` 251–253. -/
def res7Of (opts : Options) (rs : List Resource) : List Resource :=
  if opts.enforcePE.storage ∧ ¬ hasPEFor rs "storage" then ensurePEAdd rs "pe_st" "Storage"
  else rs

/-- `normalize.ts` 254–256. -/
def res8Of (opts : Options) (rs : List Resource) : List Resource :=
  if opts.enforcePE.kv ∧ ¬ hasPEFor rs "key" then ensurePEAdd rs "pe_kv" "KeyVault" else rs

/-- `normalize.ts` 210–256: the forced additions driven by the options
(App Gateway, VPN Gateway, Private Endpoints with present targets). -/
def applyEnforcedResources (opts : Options) (rs : List Resource) : List Resource :=
  res8Of opts (res7Of opts (res6Of opts (res5Of opts (res4Of opts rs))))

def flagsOfOptions (opts : Options) : Flags :=
  { waf := opts.enforceWaf, vpn := opts.enforceVpn, firewall := opts.enforceFirewall,
    bastion := opts.enforceBastion, privateEndpointSql := opts.enforcePE.sql,
    privateEndpointStorage := opts.enforcePE.storage,
    privateEndpointKeyVault := opts.enforcePE.kv }

/-- The write-through of one enforcement pass on an element of the aggregated
`vnets` array (the enforcer mutates the same JS objects in place). -/
def vnetApply (fl : Flags) (v : VNet) : VNet :=
  if v.kind == "hub" then hubFix fl v
  else if v.kind == "spoke" then spokeFix fl v
  else v

/-- The aggregation phase of `normalizeModel` (`normalize.ts` 101–183 plus the
reference remapping 139–159): returns
`(hub, hubs, vnets, spokes, peerings, remapped resources, counter)`. -/
def aggregateStage (m : Model) :
    Option VNet × List VNet × List VNet × List VNet × List Peering × List Resource × Nat :=
  let rv := renameVnets (aggVnets m) [] [] 0
  let allVnets1 := rv.1
  let vmap := rv.2.1
  let smap := rv.2.2.1
  let pe := if m.peerings ≠ [] then remapPeerings m.peerings vmap rv.2.2.2
            else (m.peerings, rv.2.2.2)
  let rr := remapResourceRefs m.resources smap vmap pe.2
  let hubsArr := allVnets1.filter (fun v => v.kind == "hub")
  let spokesArr := allVnets1.filter (fun v => v.kind == "spoke")
  let hub0 : Option VNet := if isCase3 m then allVnets1.head? else m.hub
  let sel := selectHub hub0 allVnets1 hubsArr spokesArr rr.2
  (sel.1, sel.2.1, sel.2.2.1, spokesArr, pe.1, rr.1, sel.2.2.2)

/-- The resource phase of `normalizeModel` (`normalize.ts` 185–256). -/
def resourcesStage (opts : Options) (rs : List Resource) (n : Nat) : List Resource :=
  applyEnforcedResources opts (dedupResources (retypeResources rs n).1 [])

/-- The model as it stands right before invariant enforcement
(`normalize.ts` 99–259): aggregated views, retyped/deduped/augmented
resources, and freshly auto-wired edges. -/
def mPreOf (m : Model) (opts : Options) : Model :=
  { region := regionOf m opts,
    vnets := (aggregateStage m).2.2.1,
    hubs := (aggregateStage m).2.1,
    hub := (aggregateStage m).1,
    spokes := (aggregateStage m).2.2.2.1,
    peerings := (aggregateStage m).2.2.2.2.1,
    edges := autoWireEdges
      (resourcesStage opts (aggregateStage m).2.2.2.2.2.1 (aggregateStage m).2.2.2.2.2.2) [],
    resources :=
      resourcesStage opts (aggregateStage m).2.2.2.2.2.1 (aggregateStage m).2.2.2.2.2.2,
    notes := m.notes }

/-- `normalize.ts` 85–277 (`normalizeModel`), the authoritative version.
After `enforceAzureInvariants` runs, the hub/spoke objects inside the
aggregated `vnets` array are the very JS objects the enforcer mutated, so the
aggregate view and the single-hub compatibility field are rebuilt through
`hubFix`/`spokeFix` (the per-object effect of one enforcement pass). -/
def normalizeModel (m : Model) (opts : Options) : Model :=
  let fl := flagsOfOptions opts
  let er := enforceAzureInvariants (mPreOf m opts) fl
  let mE := er.1
  { mE with
    vnets := (aggregateStage m).2.2.1.map (vnetApply fl),
    hub := if (aggregateStage m).2.1 ≠ [] then mE.hubs.head? else mE.hub,
    notes := mE.notes ++ er.2.fixes.map (fun s => "fix: " ++ s)
      ++ er.2.warnings.map (fun s => "warn: " ++ s) }

/-! ### The DR-capable `normalizeModel` variant (unnamed source `part_001`)

Only its cloning helpers (`bumpCidr16`, `cloneSubnets`, `cloneVnet`,
`cloneResource`, lines 101–141) are needed by the claims. -/

def isDigitChar (c : Char) : Bool := 48 ≤ c.toNat && c.toNat ≤ 57

def digitsToNat (cs : List Char) : Nat :=
  cs.foldl (fun acc c => acc * 10 + (c.toNat - 48)) 0

/-- Split a character list at every occurrence of `sep`. -/
def splitChar (sep : Char) : List Char → List (List Char)
  | [] => [[]]
  | c :: cs =>
    let r := splitChar sep cs
    if c = sep then [] :: r
    else match r with
      | [] => [[c]]
      | g :: gs => (c :: g) :: gs

/-- Parse `^(\d+)\.(\d+)\.(\d+)\.(\d+)<suffix>$`. -/
def parseQuadSuffix (s : String) (suffix : String) : Option (Nat × Nat × Nat × Nat) :=
  let cs := s.data
  let suf := suffix.data
  if _h : suf.length ≤ cs.length ∧ cs.drop (cs.length - suf.length) = suf then
    let body := cs.take (cs.length - suf.length)
    match splitChar '.' body with
    | [a, b, c, d] =>
      if a ≠ [] ∧ b ≠ [] ∧ c ≠ [] ∧ d ≠ [] ∧
         a.all isDigitChar ∧ b.all isDigitChar ∧ c.all isDigitChar ∧ d.all isDigitChar then
        some (digitsToNat a, digitsToNat b, digitsToNat c, digitsToNat d)
      else none
    | _ => none
  else none

/-- `part_001` 101–107: naive `/16` CIDR bump,
`"A.B.x.y/16" -> "A.(min 254 (B+add)).0.0/16"`; non-matching strings are
returned unchanged. -/
def bumpCidr16 (cidr : String) (add : Nat) : String :=
  match parseQuadSuffix cidr "/16" with
  | some q => natStr q.1 ++ "." ++ natStr (min 254 (q.2.1 + add)) ++ ".0.0/16"
  | none => cidr

/-- `part_001` 109–121: suffix every subnet id (falling back to `sn` for empty
ids) and, for `/24` CIDRs, bump the SECOND octet by one (capped at 254) while
zeroing the fourth. -/
def cloneSubnets (subnets : List Subnet) (suffix : String) : List Subnet :=
  subnets.map (fun sn =>
    { sn with
      id := (if sn.id ≠ "" then sn.id else "sn") ++ suffix,
      cidr :=
        if containsSub sn.cidr "/24" then
          match parseQuadSuffix sn.cidr "/24" with
          | some q => natStr q.1 ++ "." ++ natStr (min 254 (q.2.1 + 1)) ++ "."
              ++ natStr q.2.2.1 ++ ".0/24"
          | none => sn.cidr
        else sn.cidr })

/-- JS `s.replace("_", "")`: remove the first underscore only. -/
def removeFirstUnderscore (s : String) : String :=
  match s.data.findIdx? (fun c => c = '_') with
  | some i => ⟨s.data.take i ++ s.data.drop (i + 1)⟩
  | none => s

/-- `part_001` 123–131. -/
def cloneVnet (v : VNet) (suffix : String) (bump : Nat) : VNet :=
  { v with
    id := v.id ++ suffix,
    label := (if v.label ≠ "" then v.label
              else if v.kind = "hub" then "Hub VNet" else "Spoke")
      ++ " " ++ toUpperStr (removeFirstUnderscore suffix),
    cidr := bumpCidr16 v.cidr bump,
    subnets := cloneSubnets v.subnets suffix }

/-- `part_001` 133–141. -/
def cloneResource (r : Resource) (suffix : String) (idMap : List (String × String)) :
    Resource :=
  let r1 := { r with id := r.id ++ suffix }
  let r2 := if r1.label ≠ "" then
      { r1 with label := r1.label ++ " " ++ toUpperStr (removeFirstUnderscore suffix) }
    else r1
  if r2.rtype = "PrivateEndpoint" ∧ r.targetResourceId ≠ "" then
    { r2 with targetResourceId := (mapGet idMap r.targetResourceId).getD r.targetResourceId }
  else r2

/-! ### Basic lemmas about the string primitives -/

theorem matchPat_lit_self (p t : List Char) : matchPat (p.map Pat.lit) (p ++ t) = true := by
  induction p with
  | nil => simp [matchPat]
  | cons c p ih => simp [matchPat, ih]

theorem searchPat_of_matchPat (ps : List Pat) (cs : List Char)
    (h : matchPat ps cs = true) : searchPat ps cs = true := by
  cases cs with
  | nil => simpa [searchPat] using h
  | cons x xs => simp [searchPat, h]

theorem searchPat_suffix (p pre : List Char) : searchPat (p.map Pat.lit) (pre ++ p) = true := by
  induction pre with
  | nil =>
    apply searchPat_of_matchPat
    have h := matchPat_lit_self p []
    rw [List.append_nil] at h
    exact h
  | cons x pre ih => simp [searchPat, ih]

theorem containsSub_of_decomp (s suf : String) (body : List Char)
    (h : s.data = body ++ suf.data) : containsSub s suf = true := by
  unfold containsSub lits
  rw [h]
  exact searchPat_suffix suf.data body

theorem parseQuadSuffix_decomp (s suffix : String) (q : Nat × Nat × Nat × Nat)
    (h : parseQuadSuffix s suffix = some q) :
    s.data = s.data.take (s.data.length - suffix.data.length) ++ suffix.data := by
  by_cases hc : suffix.data.length ≤ s.data.length ∧
      List.drop (s.data.length - suffix.data.length) s.data = suffix.data
  · conv_lhs => rw [← List.take_append_drop (s.data.length - suffix.data.length) s.data]
    rw [hc.2]
  · exfalso
    simp only [parseQuadSuffix] at h
    rw [dif_neg hc] at h
    exact Option.noConfusion h

theorem containsSub_of_parse (s suffix : String) (q : Nat × Nat × Nat × Nat)
    (h : parseQuadSuffix s suffix = some q) : containsSub s suffix = true :=
  containsSub_of_decomp s suffix _ (parseQuadSuffix_decomp s suffix q h)

/-! ### Claim C3 — fixed points of the type normalizer -/

/-- C3 counterexample: the claim asserts `normType k = k` for every canonical
kind including `NetworkSecurityGroup`, but the canonical name
`"NetworkSecurityGroup"` contains none of the normalizer's keywords (in
particular not the substring `"nsg"`), so it falls through to the default
`"AppService"`. -/
theorem C3_counterexample :
    normType "NetworkSecurityGroup" = "AppService" ∧
    normType "NetworkSecurityGroup" ≠ "NetworkSecurityGroup" := by decide

/-- C3 amended: feeding a canonical kind name back through `normType` is a
fixed point for AppGateway, AzureFirewall, VpnGateway, ExpressRouteGateway,
Bastion, AppService, SqlDb, Storage, KeyVault, PrivateEndpoint,
PrivateDnsZone, RouteTable and TrafficManager — but NOT for
NetworkSecurityGroup and PublicIP, which both normalize to the default
AppService. -/
theorem C3_amended :
    normType "AppGateway" = "AppGateway" ∧
    normType "AzureFirewall" = "AzureFirewall" ∧
    normType "VpnGateway" = "VpnGateway" ∧
    normType "ExpressRouteGateway" = "ExpressRouteGateway" ∧
    normType "Bastion" = "Bastion" ∧
    normType "AppService" = "AppService" ∧
    normType "SqlDb" = "SqlDb" ∧
    normType "Storage" = "Storage" ∧
    normType "KeyVault" = "KeyVault" ∧
    normType "PrivateEndpoint" = "PrivateEndpoint" ∧
    normType "PrivateDnsZone" = "PrivateDnsZone" ∧
    normType "RouteTable" = "RouteTable" ∧
    normType "TrafficManager" = "TrafficManager" ∧
    normType "NetworkSecurityGroup" = "AppService" ∧
    normType "PublicIP" = "AppService" := by decide

/-! ### Claim C7 — input edges never influence the output -/

/-- C7: two input models that differ only in their edge lists produce
identical outputs: `normalizeModel` discards the supplied edge list outright
(`m.edges = []` before `autoWireEdges`) and never reads it. -/
theorem C7_edges_no_influence (m : Model) (opts : Options) (e1 e2 : List Edge) :
    normalizeModel { m with edges := e1 } opts = normalizeModel { m with edges := e2 } opts :=
  rfl

/-! ### Claim C8 — the identifier sanitizer -/

/-- Modelled from the spec: "Strips all characters outside the
alphanumeric/underscore set" read literally as removal of those characters
(the code instead replaces each with an underscore). -/
def idSafeSpecStrip (s : String) : String :=
  ⟨(jsTrimList s.data).filter isWordChar⟩

/-- C8 counterexample: on `"a-b"` the sanitizer produces `"a_b"` (the hyphen
is replaced by an underscore), not the stripped string `"ab"` the claim
describes. -/
theorem C8_counterexample :
    idSafe "a-b" = "a_b" ∧ idSafeSpecStrip "a-b" = "ab" ∧
    idSafe "a-b" ≠ idSafeSpecStrip "a-b" := by decide

/-- C8 amended: the sanitizer trims JS whitespace and REPLACES every character
outside `[A-Za-z0-9_]` with an underscore (so the result consists of word
characters only); when the result is empty or exactly `"_"` the stateful
wrapper returns the generated id `n<counter>` and increments the counter
(which `normalizeModel` starts at 0 each pass); for any input whose sanitized
form is valid the wrapper returns that form and leaves the counter untouched,
so repeated calls with the same valid input yield the same id within a pass. -/
theorem C8_amended (s : String) (n : Nat) :
    (∀ c ∈ (idSafe s).data, isWordChar c = true) ∧
    (idSafe s = "" ∨ idSafe s = "_" → ensureId s n = ("n" ++ natStr n, n + 1)) ∧
    (idSafe s ≠ "" ∧ idSafe s ≠ "_" → ensureId s n = (idSafe s, n)) := by
  refine ⟨?_, ?_, ?_⟩
  · intro c hc
    have : c ∈ (jsTrimList s.data).map (fun c => if isWordChar c then c else '_') := hc
    obtain ⟨a, _, rfl⟩ := List.mem_map.1 this
    by_cases h : isWordChar a
    · rw [if_pos h]
      exact h
    · rw [if_neg h]
      decide
  · rintro (h | h) <;> simp [ensureId, h]
  · rintro ⟨h1, h2⟩
    simp [ensureId, h1, h2]

theorem C8_amended_witness :
    (idSafe "vnet1" ≠ "" ∧ idSafe "vnet1" ≠ "_") ∧
    ensureId "vnet1" 0 = (idSafe "vnet1", 0) :=
  ⟨by decide, (C8_amended "vnet1" 0).2.2 (by decide)⟩

/-! ### Claim C9 — DR cloning (the `part_001` variant) -/

/-- C9 counterexample: cloning the subnet `10.1.1.0/24` yields CIDR
`10.2.1.0/24` — the code bumps the SECOND octet (and zeroes the fourth) —
whereas the claim demands the THIRD octet be increased ("10.1.2.0/24", or
"10.1.3.0/24" with the hub increment of 2). -/
theorem C9_counterexample :
    (cloneSubnets [{ id := "sn1", cidr := "10.1.1.0/24", purpose := "app" }] "_west").map
        Subnet.cidr = ["10.2.1.0/24"] ∧
    ("10.2.1.0/24" : String) ≠ "10.1.2.0/24" ∧
    ("10.2.1.0/24" : String) ≠ "10.1.3.0/24" := by decide

/-- C9 amended: every cloned VNet id, subnet id (when the original id is
non-empty; an empty id falls back to `"sn"`) and resource id is the original
with the region suffix appended; a cloned VNet whose CIDR parses as
`A.B.x.y/16` gets CIDR `A.(min 254 (B+bump)).0.0/16` (second octet bumped,
third and fourth zeroed); a cloned subnet whose CIDR parses as `a.b.c.d/24`
gets CIDR `a.(min 254 (b+1)).c.0/24` — the SECOND octet bumped by one, not
the third as the claim stated. -/
theorem C9_amended (v : VNet) (sn : Subnet) (r : Resource) (suffix : String)
    (bump : Nat) (idMap : List (String × String)) (a b c d : Nat) :
    ((cloneVnet v suffix bump).id = v.id ++ suffix) ∧
    ((cloneVnet v suffix bump).subnets = cloneSubnets v.subnets suffix) ∧
    (parseQuadSuffix v.cidr "/16" = some (a, b, c, d) →
      (cloneVnet v suffix bump).cidr
        = natStr a ++ "." ++ natStr (min 254 (b + bump)) ++ ".0.0/16") ∧
    (sn.id ≠ "" → (cloneSubnets [sn] suffix).map Subnet.id = [sn.id ++ suffix]) ∧
    (parseQuadSuffix sn.cidr "/24" = some (a, b, c, d) →
      (cloneSubnets [sn] suffix).map Subnet.cidr
        = [natStr a ++ "." ++ natStr (min 254 (b + 1)) ++ "." ++ natStr c ++ ".0/24"]) ∧
    ((cloneResource r suffix idMap).id = r.id ++ suffix) := by
  refine ⟨?_, ?_, ?_, ?_, ?_, ?_⟩
  · simp [cloneVnet]
  · simp [cloneVnet]
  · intro h
    simp [cloneVnet, bumpCidr16, h]
  · intro h
    simp [cloneSubnets, h]
  · intro h
    have hc := containsSub_of_parse sn.cidr "/24" _ h
    simp [cloneSubnets, hc, h]
  · simp only [cloneResource]
    split <;> split <;> rfl

theorem C9_amended_witness :
    (parseQuadSuffix "10.0.0.0/16" "/16" = some (10, 0, 0, 0)) ∧
    (cloneVnet { id := "hub", cidr := "10.0.0.0/16", kind := "hub" } "_west" 2).cidr
      = natStr 10 ++ "." ++ natStr (min 254 (0 + 2)) ++ ".0.0/16" :=
  ⟨by decide,
   (C9_amended { id := "hub", cidr := "10.0.0.0/16", kind := "hub" }
      { id := "sn", cidr := "10.0.1.0/24" } { id := "r" } "_west" 2 [] 10 0 0 0).2.2.1
     (by decide)⟩

/-! ### Lemmas about the enforcement stages -/

theorem addSubnetIfMissing_of_has {n : String} (c : String) {v : VNet}
    (h : hasSubnet v n = true) : addSubnetIfMissing n c v = v := by
  simp [addSubnetIfMissing, h]

theorem hasSubnet_add_self (n c : String) (v : VNet) :
    hasSubnet (addSubnetIfMissing n c v) n = true := by
  unfold addSubnetIfMissing
  split
  · assumption
  · unfold hasSubnet
    simp [List.any_append]

theorem hasSubnet_add_mono (n' c' : String) {n : String} {v : VNet}
    (h : hasSubnet v n = true) : hasSubnet (addSubnetIfMissing n' c' v) n = true := by
  by_cases h2 : hasSubnet v n'
  · simpa [addSubnetIfMissing, h2] using h
  · unfold hasSubnet at h ⊢
    simp [addSubnetIfMissing, h2, List.any_append, h]

theorem ensureSubnetMsgs_nil (n c : String) (hubs : List VNet)
    (h : ∀ v ∈ hubs, hasSubnet v n = true) : ensureSubnetMsgs n c hubs = [] := by
  unfold ensureSubnetMsgs
  have : hubs.filter (fun hb => ¬ hasSubnet hb n) = [] := by
    rw [List.filter_eq_nil_iff]
    intro a ha
    simp [h a ha]
  rw [this]
  rfl

theorem list_map_self {α : Type} (l : List α) (f : α → α) (h : ∀ x ∈ l, f x = x) :
    l.map f = l := by
  induction l with
  | nil => rfl
  | cons x xs ih => simp [h x (by simp), ih (fun y hy => h y (by simp [hy]))]

theorem list_map_ext {α β : Type} (l : List α) (f g : α → β) (h : ∀ x, f x = g x) :
    l.map f = l.map g := by
  rw [show f = g from funext h]

theorem hubFix_eq (fl : Flags) (v : VNet) :
    hubFix fl v =
      (if fl.bastion then addSubnetIfMissing "AzureBastionSubnet" "10.0.1.64/26" else id)
        ((if fl.firewall then addSubnetIfMissing "AzureFirewallSubnet" "10.0.1.0/26" else id)
          ((if fl.vpn then addSubnetIfMissing "GatewaySubnet" "10.0.0.32/27" else id) v)) := by
  simp only [hubFix]
  cases fl.vpn <;> cases fl.firewall <;> cases fl.bastion <;> simp

theorem hubStages_fst_map (fl : Flags) (hubs0 : List VNet) :
    (hubStages fl hubs0).1 = hubs0.map (hubFix fl) := by
  have key : hubFix fl = (fun v =>
      (if fl.bastion then addSubnetIfMissing "AzureBastionSubnet" "10.0.1.64/26" else id)
        ((if fl.firewall then addSubnetIfMissing "AzureFirewallSubnet" "10.0.1.0/26" else id)
          ((if fl.vpn then addSubnetIfMissing "GatewaySubnet" "10.0.0.32/27" else id) v))) :=
    funext (hubFix_eq fl)
  rw [key]
  cases hv : fl.vpn <;> cases hf : fl.firewall <;> cases hb : fl.bastion <;>
    simp [hubStages, hv, hf, hb, List.map_map, Function.comp_def]

theorem hasSubnet_hubFix_vpn (fl : Flags) (v : VNet) (h : fl.vpn = true) :
    hasSubnet (hubFix fl v) "GatewaySubnet" = true := by
  cases hf : fl.firewall <;> cases hb : fl.bastion <;>
    simp only [hubFix_eq, h, hf, hb, ite_true, ite_false, id] <;>
    first
      | exact hasSubnet_add_self _ _ _
      | exact hasSubnet_add_mono _ _ (hasSubnet_add_self _ _ _)
      | exact hasSubnet_add_mono _ _ (hasSubnet_add_mono _ _ (hasSubnet_add_self _ _ _))

theorem hasSubnet_hubFix_fw (fl : Flags) (v : VNet) (h : fl.firewall = true) :
    hasSubnet (hubFix fl v) "AzureFirewallSubnet" = true := by
  cases hb : fl.bastion <;>
    simp only [hubFix_eq, h, hb, ite_true, ite_false, id] <;>
    first
      | exact hasSubnet_add_self _ _ _
      | exact hasSubnet_add_mono _ _ (hasSubnet_add_self _ _ _)

theorem hasSubnet_hubFix_bastion (fl : Flags) (v : VNet) (h : fl.bastion = true) :
    hasSubnet (hubFix fl v) "AzureBastionSubnet" = true := by
  simp only [hubFix_eq, h, ite_true]
  exact hasSubnet_add_self _ _ _

theorem hubStages_post (fl : Flags) (hubs0 : List VNet) :
    ∀ v ∈ (hubStages fl hubs0).1,
      (fl.vpn = true → hasSubnet v "GatewaySubnet" = true) ∧
      (fl.firewall = true → hasSubnet v "AzureFirewallSubnet" = true) ∧
      (fl.bastion = true → hasSubnet v "AzureBastionSubnet" = true) := by
  intro v hv
  rw [hubStages_fst_map] at hv
  obtain ⟨w, _, rfl⟩ := List.mem_map.1 hv
  exact ⟨hasSubnet_hubFix_vpn fl w, hasSubnet_hubFix_fw fl w, hasSubnet_hubFix_bastion fl w⟩

theorem hubStages_noop (fl : Flags) (hubs0 : List VNet)
    (h : ∀ v ∈ hubs0,
      (fl.vpn = true → hasSubnet v "GatewaySubnet" = true) ∧
      (fl.firewall = true → hasSubnet v "AzureFirewallSubnet" = true) ∧
      (fl.bastion = true → hasSubnet v "AzureBastionSubnet" = true)) :
    hubStages fl hubs0 = (hubs0, []) := by
  have e1 : (if fl.vpn then
      hubs0.map (addSubnetIfMissing "GatewaySubnet" "10.0.0.32/27") else hubs0) = hubs0 := by
    split
    · exact list_map_self _ _ (fun v hv => addSubnetIfMissing_of_has _ ((h v hv).1 (by assumption)))
    · rfl
  have f1 : (if fl.vpn then ensureSubnetMsgs "GatewaySubnet" "10.0.0.32/27" hubs0 else []) = [] := by
    split
    · exact ensureSubnetMsgs_nil _ _ _ (fun v hv => (h v hv).1 (by assumption))
    · rfl
  have e2 : (if fl.firewall then
      hubs0.map (addSubnetIfMissing "AzureFirewallSubnet" "10.0.1.0/26") else hubs0) = hubs0 := by
    split
    · exact list_map_self _ _ (fun v hv => addSubnetIfMissing_of_has _ ((h v hv).2.1 (by assumption)))
    · rfl
  have f2 : (if fl.firewall then
      ensureSubnetMsgs "AzureFirewallSubnet" "10.0.1.0/26" hubs0 else []) = [] := by
    split
    · exact ensureSubnetMsgs_nil _ _ _ (fun v hv => (h v hv).2.1 (by assumption))
    · rfl
  have e3 : (if fl.bastion then
      hubs0.map (addSubnetIfMissing "AzureBastionSubnet" "10.0.1.64/26") else hubs0) = hubs0 := by
    split
    · exact list_map_self _ _ (fun v hv => addSubnetIfMissing_of_has _ ((h v hv).2.2 (by assumption)))
    · rfl
  have f3 : (if fl.bastion then
      ensureSubnetMsgs "AzureBastionSubnet" "10.0.1.64/26" hubs0 else []) = [] := by
    split
    · exact ensureSubnetMsgs_nil _ _ _ (fun v hv => (h v hv).2.2 (by assumption))
    · rfl
  simp only [hubStages]
  rw [e1, e2, e3, f1, f2, f3]
  rfl

theorem pdzFold_prefix (zones : List String) (rs : List Resource) :
    ∃ l, (pdzFold zones rs).1 = rs ++ l ∧ ∀ r ∈ l, r.rtype = "PrivateDnsZone" := by
  induction zones generalizing rs with
  | nil => exact ⟨[], by simp [pdzFold], by simp⟩
  | cons z rest ih =>
    simp only [pdzFold]
    split
    · exact ih rs
    · obtain ⟨l, hl, ht⟩ := ih (rs ++ [pdzZone z])
      refine ⟨pdzZone z :: l, ?_, ?_⟩
      · simpa using hl
      · intro r hr
        rcases List.mem_cons.1 hr with rfl | hr2
        · rfl
        · exact ht r hr2

theorem pdzFold_covers (zones : List String) (rs : List Resource) :
    ∀ z ∈ zones,
      ((pdzFold zones rs).1.any
        (fun r => r.rtype == "PrivateDnsZone" && r.zoneName == z)) = true := by
  induction zones generalizing rs with
  | nil => simp
  | cons z0 rest ih =>
    intro z hz
    simp only [pdzFold]
    split
    · rename_i hpres
      rcases List.mem_cons.1 hz with rfl | hz2
      · obtain ⟨l, hl, _⟩ := pdzFold_prefix rest rs
        rw [hl, List.any_append, hpres]
        rfl
      · exact ih rs z hz2
    · rcases List.mem_cons.1 hz with rfl | hz2
      · obtain ⟨l, hl, _⟩ := pdzFold_prefix rest (rs ++ [pdzZone z])
        show ((pdzFold rest (rs ++ [pdzZone z])).1.any _) = true
        rw [hl, List.any_append, List.any_append]
        simp [pdzZone]
      · exact ih _ z hz2

theorem pdzFold_noop (zones : List String) (rs : List Resource)
    (h : ∀ z ∈ zones,
      rs.any (fun r => r.rtype == "PrivateDnsZone" && r.zoneName == z) = true) :
    pdzFold zones rs = (rs, []) := by
  induction zones with
  | nil => rfl
  | cons z rest ih =>
    simp only [pdzFold]
    rw [if_pos (h z (by simp))]
    exact ih (fun z2 hz2 => h z2 (by simp [hz2]))

theorem udrFold_prefix (spokes : List VNet) (rs : List Resource) :
    ∃ l, (udrFold spokes rs).1 = rs ++ l ∧ ∀ r ∈ l, r.rtype = "RouteTable" := by
  induction spokes generalizing rs with
  | nil => exact ⟨[], by simp [udrFold], by simp⟩
  | cons sp rest ih =>
    simp only [udrFold]
    split
    · exact ih rs
    · obtain ⟨l, hl, ht⟩ := ih (rs ++ [rtResource sp])
      refine ⟨rtResource sp :: l, ?_, ?_⟩
      · simpa using hl
      · intro r hr
        rcases List.mem_cons.1 hr with rfl | hr2
        · rfl
        · exact ht r hr2

theorem hasType_append_no (rs l : List Resource) (t : String)
    (h : ∀ r ∈ l, r.rtype ≠ t) : hasType (rs ++ l) t = hasType rs t := by
  unfold hasType
  rw [List.any_append]
  have : l.any (fun r => r.rtype == t) = false := by
    rw [List.any_eq_false]
    intro r hr
    simpa using h r hr
  rw [this, Bool.or_false]

theorem hubStages_nil (fl : Flags) : hubStages fl [] = ([], []) := by
  simp [hubStages, ensureSubnetMsgs]

theorem enfHubs_of_ne {m : Model} (hne : m.hubs ≠ []) : enfHubs m = m.hubs := by
  simp [enfHubs, hne]

theorem enfHubs_of_nil {m : Model} (hnil : m.hubs = []) :
    enfHubs m = (match m.hub with | some h => [h] | none => []) := by
  simp [enfHubs, hnil]

/-- Common right-hand side of the two `enforce_noWafFw` characterizations. -/
def enforceAudit (m : Model) (fl : Flags) : InvariantResult :=
  { warnings :=
      (if fl.vpn ∧ ¬ hasType m.resources "VpnGateway" then
          ["VPN requested but VpnGateway missing (auto-added)"] else []) ++
      (if fl.bastion ∧ ¬ hasType m.resources "Bastion" then
          ["Bastion requested but resource missing"] else []) ++
      (if needsPDZb fl then
          ["Private Endpoint uses require Private DNS zones and zone links to VNets."]
       else []) ++
      (if needsPDZb fl then
          ["Private Endpoint を使う場合、Private DNS ゾーンとVNetリンク構成が必要。"]
       else []),
    fixes := (hubStages fl (enfHubs m)).2 ++ (pdzFold (zonesOf fl) m.resources).2 }

/-- One enforcement pass with WAF and firewall off, no App Gateway present,
and a non-empty hub list: hub subnets ensured in `hubs`, zones appended. -/
theorem enforce_noWafFw_ne (m : Model) (fl : Flags)
    (hw : fl.waf = false) (hf : fl.firewall = false)
    (hag : hasType m.resources "AppGateway" = false) (hne : m.hubs ≠ []) :
    enforceAzureInvariants m fl =
      ({ m with
         hubs := (hubStages fl m.hubs).1,
         resources := (pdzFold (zonesOf fl) m.resources).1 },
       enforceAudit m fl) := by
  obtain ⟨l, hl, hlt⟩ := pdzFold_prefix (zonesOf fl) m.resources
  have hA : hasType (pdzFold (zonesOf fl) m.resources).1 "AppGateway" = false := by
    rw [hl, hasType_append_no _ _ _ (fun r hr => by rw [hlt r hr]; decide)]
    exact hag
  simp [enforceAzureInvariants, enforceAudit, wafStage, enfHubs, resFinal, udRes, pzRes,
    pipNeededOf, spokesFinal, hw, hf, hA, hne]

/-- One enforcement pass with WAF and firewall off, no App Gateway present,
and an empty hub list: the single `hub` field receives the enforced hub. -/
theorem enforce_noWafFw_nil (m : Model) (fl : Flags)
    (hw : fl.waf = false) (hf : fl.firewall = false)
    (hag : hasType m.resources "AppGateway" = false) (hnil : m.hubs = []) :
    enforceAzureInvariants m fl =
      ({ m with
         hub := (hubStages fl (enfHubs m)).1.head?,
         resources := (pdzFold (zonesOf fl) m.resources).1 },
       enforceAudit m fl) := by
  obtain ⟨l, hl, hlt⟩ := pdzFold_prefix (zonesOf fl) m.resources
  have hA : hasType (pdzFold (zonesOf fl) m.resources).1 "AppGateway" = false := by
    rw [hl, hasType_append_no _ _ _ (fun r hr => by rw [hlt r hr]; decide)]
    exact hag
  simp [enforceAzureInvariants, enforceAudit, wafStage, enfHubs, resFinal, udRes, pzRes,
    pipNeededOf, spokesFinal, hw, hf, hA, hnil]

/-- C2 counterexample: on a model holding only an AppGateway (and no flags),
the second enforcement run re-adds the PublicIP — its guard tests `/agw/i`
against the label `"PIP (AppGW)"`, which does not contain `agw` — so the
second run's fix list is NOT empty. -/
theorem C2_counterexample :
    (enforceAzureInvariants
        (enforceAzureInvariants
          { resources := [{ id := "agw", rtype := "AppGateway" }] } {}).1 {}).2.fixes
      = ["added PublicIP for App Gateway"] ∧
    (enforceAzureInvariants
        (enforceAzureInvariants
          { resources := [{ id := "agw", rtype := "AppGateway" }] } {}).1 {}).2.fixes
      ≠ ([] : List String) := by decide

/-- C2 amended: re-running `enforceAzureInvariants` on its own output with the
same flags yields an empty fix list and the identical warning list, PROVIDED
the WAF and firewall flags are off and no AppGateway resource is present.
(The original claim fails on the code: the PublicIP guard tests `/agw/i`
against the label `"PIP (AppGW)"`, which never matches, so the PublicIP is
re-added with a fresh fix every pass whenever an AppGateway exists; and the
WAF/route-table review warnings are emitted only inside their fix branches,
so they are not re-emitted once the fix has been applied.) -/
theorem C2_amended (m : Model) (fl : Flags)
    (hw : fl.waf = false) (hf : fl.firewall = false)
    (hag : hasType m.resources "AppGateway" = false) :
    (enforceAzureInvariants (enforceAzureInvariants m fl).1 fl).2.fixes = [] ∧
    (enforceAzureInvariants (enforceAzureInvariants m fl).1 fl).2.warnings
      = (enforceAzureInvariants m fl).2.warnings := by
  obtain ⟨l, hl, hlt⟩ := pdzFold_prefix (zonesOf fl) m.resources
  have hag1 : hasType (pdzFold (zonesOf fl) m.resources).1 "AppGateway" = false := by
    rw [hl, hasType_append_no _ _ _ (fun r hr => by rw [hlt r hr]; decide)]
    exact hag
  have hVpn : hasType (pdzFold (zonesOf fl) m.resources).1 "VpnGateway"
      = hasType m.resources "VpnGateway" := by
    rw [hl, hasType_append_no _ _ _ (fun r hr => by rw [hlt r hr]; decide)]
  have hBas : hasType (pdzFold (zonesOf fl) m.resources).1 "Bastion"
      = hasType m.resources "Bastion" := by
    rw [hl, hasType_append_no _ _ _ (fun r hr => by rw [hlt r hr]; decide)]
  have hpdz : pdzFold (zonesOf fl) (pdzFold (zonesOf fl) m.resources).1
      = ((pdzFold (zonesOf fl) m.resources).1, []) :=
    pdzFold_noop _ _ (fun z hz => pdzFold_covers (zonesOf fl) m.resources z hz)
  rcases eq_or_ne m.hubs ([] : List VNet) with hmh | hmh
  · rw [enforce_noWafFw_nil m fl hw hf hag hmh]
    have hm1nil : ({ m with
        hub := (hubStages fl (enfHubs m)).1.head?,
        resources := (pdzFold (zonesOf fl) m.resources).1 } : Model).hubs = [] := hmh
    rw [enforce_noWafFw_nil _ fl hw hf hag1 hm1nil]
    refine ⟨?_, ?_⟩
    · show (hubStages fl (enfHubs ({ m with
          hub := (hubStages fl (enfHubs m)).1.head?,
          resources := (pdzFold (zonesOf fl) m.resources).1 } : Model))).2
        ++ (pdzFold (zonesOf fl) (pdzFold (zonesOf fl) m.resources).1).2 = []
      rw [hpdz, enfHubs_of_nil hm1nil]
      show (hubStages fl (match (hubStages fl (enfHubs m)).1.head? with
        | some h => [h] | none => [])).2 ++ ([] : List String) = []
      cases hh : (hubStages fl (enfHubs m)).1.head? with
      | none =>
        rw [hubStages_nil]
        rfl
      | some h0 =>
        have hmem : h0 ∈ (hubStages fl (enfHubs m)).1 := List.mem_of_mem_head? hh
        have hno : hubStages fl [h0] = ([h0], []) := by
          apply hubStages_noop
          intro v hv
          rw [List.mem_singleton] at hv
          subst hv
          exact hubStages_post fl (enfHubs m) v hmem
        rw [hno]
        rfl
    · show (enforceAudit ({ m with
          hub := (hubStages fl (enfHubs m)).1.head?,
          resources := (pdzFold (zonesOf fl) m.resources).1 } : Model) fl).warnings
        = (enforceAudit m fl).warnings
      simp only [enforceAudit, hVpn, hBas]
  · rw [enforce_noWafFw_ne m fl hw hf hag hmh]
    have hm1ne : ({ m with
        hubs := (hubStages fl m.hubs).1,
        resources := (pdzFold (zonesOf fl) m.resources).1 } : Model).hubs ≠ [] := by
      show (hubStages fl m.hubs).1 ≠ []
      rw [hubStages_fst_map]
      simpa [List.map_eq_nil_iff] using hmh
    rw [enforce_noWafFw_ne _ fl hw hf hag1 hm1ne]
    refine ⟨?_, ?_⟩
    · show (hubStages fl (enfHubs ({ m with
          hubs := (hubStages fl m.hubs).1,
          resources := (pdzFold (zonesOf fl) m.resources).1 } : Model))).2
        ++ (pdzFold (zonesOf fl) (pdzFold (zonesOf fl) m.resources).1).2 = []
      rw [hpdz, enfHubs_of_ne hm1ne]
      show (hubStages fl ((hubStages fl m.hubs).1)).2 ++ ([] : List String) = []
      have hno : hubStages fl ((hubStages fl m.hubs).1) = ((hubStages fl m.hubs).1, []) :=
        hubStages_noop _ _ (fun v hv => hubStages_post fl m.hubs v hv)
      rw [hno]
      rfl
    · show (enforceAudit ({ m with
          hubs := (hubStages fl m.hubs).1,
          resources := (pdzFold (zonesOf fl) m.resources).1 } : Model) fl).warnings
        = (enforceAudit m fl).warnings
      simp only [enforceAudit, hVpn, hBas]

theorem C2_amended_witness :
    (({ vpn := true } : Flags).waf = false ∧ ({ vpn := true } : Flags).firewall = false ∧
      hasType (({} : Model)).resources "AppGateway" = false) ∧
    (enforceAzureInvariants
        (enforceAzureInvariants ({} : Model) { vpn := true }).1 { vpn := true }).2.fixes = [] :=
  ⟨⟨rfl, rfl, by decide⟩,
   (C2_amended {} { vpn := true } rfl rfl (by decide)).1⟩

/-! ### Claim C10 — the enforcer never removes or re-identifies anything -/

theorem list_get?_append_left {α : Type} {l1 l2 : List α} {i : Nat} {x : α}
    (h : l1.get? i = some x) : (l1 ++ l2).get? i = some x := by
  induction l1 generalizing i with
  | nil => simp at h
  | cons a l ih =>
    cases i with
    | zero => simpa using h
    | succ j =>
      simp only [List.cons_append, List.get?_cons_succ] at h ⊢
      exact ih h

theorem list_get?_map {α β : Type} (f : α → β) (l : List α) (i : Nat) :
    (l.map f).get? i = (l.get? i).map f := by
  induction l generalizing i with
  | nil => simp
  | cons a l ih =>
    cases i with
    | zero => simp
    | succ j =>
      simp only [List.map_cons, List.get?_cons_succ]
      exact ih j

/-- Positional preservation of subnets: every original subnet is still at its
position with the same id and CIDR, and the list has only grown. -/
def subnetsKeep (a b : VNet) : Prop :=
  a.subnets.length ≤ b.subnets.length ∧
  ∀ i sn, a.subnets.get? i = some sn →
    ∃ sn2, b.subnets.get? i = some sn2 ∧ sn2.id = sn.id ∧ sn2.cidr = sn.cidr

def vnetKeep (a b : VNet) : Prop := b.id = a.id ∧ subnetsKeep a b

theorem vnetKeep_refl (v : VNet) : vnetKeep v v :=
  ⟨rfl, le_refl _, fun _ sn h => ⟨sn, h, rfl, rfl⟩⟩

theorem vnetKeep_trans {a b c : VNet} (h1 : vnetKeep a b) (h2 : vnetKeep b c) :
    vnetKeep a c := by
  refine ⟨h2.1.trans h1.1, h1.2.1.trans h2.2.1, ?_⟩
  intro i sn h
  obtain ⟨sn2, hb, hid, hcidr⟩ := h1.2.2 i sn h
  obtain ⟨sn3, hc, hid2, hcidr2⟩ := h2.2.2 i sn2 hb
  exact ⟨sn3, hc, hid2.trans hid, hcidr2.trans hcidr⟩

theorem vnetKeep_add (n c : String) (v : VNet) : vnetKeep v (addSubnetIfMissing n c v) := by
  unfold addSubnetIfMissing
  split
  · exact vnetKeep_refl v
  · refine ⟨rfl, by simp, ?_⟩
    intro i sn h
    exact ⟨sn, list_get?_append_left h, rfl, rfl⟩

theorem vnetKeep_attachRT (v : VNet) : vnetKeep v (attachRT v) := by
  refine ⟨rfl, by simp [attachRT], ?_⟩
  intro i sn h
  unfold attachRT
  simp only [list_get?_map, h, Option.map_some']
  split
  · exact ⟨_, rfl, rfl, rfl⟩
  · exact ⟨sn, rfl, rfl, rfl⟩

theorem vnetKeep_stage (b : Bool) (f : VNet → VNet) (hf : ∀ w, vnetKeep w (f w)) (v : VNet) :
    vnetKeep v ((if b then f else id) v) := by
  cases b
  · exact vnetKeep_refl v
  · exact hf v

theorem vnetKeep_hubFix (fl : Flags) (v : VNet) : vnetKeep v (hubFix fl v) := by
  rw [hubFix_eq]
  exact vnetKeep_trans
    (vnetKeep_trans (vnetKeep_stage fl.vpn _ (vnetKeep_add _ _) v)
      (vnetKeep_stage fl.firewall _ (vnetKeep_add _ _) _))
    (vnetKeep_stage fl.bastion _ (vnetKeep_add _ _) _)

theorem vnetKeep_spokeFix (fl : Flags) (v : VNet) : vnetKeep v (spokeFix fl v) := by
  unfold spokeFix
  cases hw : fl.waf <;> cases hf : fl.firewall <;> simp only [ite_true, ite_false]
  · exact vnetKeep_refl v
  · exact vnetKeep_attachRT v
  · exact vnetKeep_add _ _ v
  · exact vnetKeep_trans (vnetKeep_add _ _ v) (vnetKeep_attachRT _)

/-- Positional preservation of a VNet list. -/
def listKeep (a b : List VNet) : Prop :=
  b.length = a.length ∧
  ∀ i v, a.get? i = some v → ∃ v2, b.get? i = some v2 ∧ vnetKeep v v2

theorem listKeep_refl (l : List VNet) : listKeep l l :=
  ⟨rfl, fun _ v h => ⟨v, h, vnetKeep_refl v⟩⟩

theorem listKeep_trans {a b c : List VNet} (h1 : listKeep a b) (h2 : listKeep b c) :
    listKeep a c := by
  refine ⟨h2.1.trans h1.1, ?_⟩
  intro i v h
  obtain ⟨v2, hb, hk⟩ := h1.2 i v h
  obtain ⟨v3, hc, hk2⟩ := h2.2 i v2 hb
  exact ⟨v3, hc, vnetKeep_trans hk hk2⟩

theorem listKeep_map (l : List VNet) (f : VNet → VNet) (hf : ∀ v, vnetKeep v (f v)) :
    listKeep l (l.map f) := by
  refine ⟨by simp, ?_⟩
  intro i v h
  refine ⟨f v, ?_, hf v⟩
  rw [list_get?_map, h]
  rfl

theorem listKeep_wafStage (fl : Flags) (spokes : List VNet) :
    listKeep spokes (wafStage fl spokes).1 := by
  unfold wafStage
  split
  · exact listKeep_map _ _ (vnetKeep_add _ _)
  · exact listKeep_refl _

theorem listKeep_spokesFinal (m : Model) (fl : Flags) :
    listKeep m.spokes (spokesFinal m fl) := by
  unfold spokesFinal
  split
  · exact listKeep_trans (listKeep_wafStage fl m.spokes)
      (listKeep_map _ _ vnetKeep_attachRT)
  · exact listKeep_wafStage fl m.spokes

theorem resFinal_prefix (m : Model) (fl : Flags) :
    ∃ added, resFinal m fl = m.resources ++ added := by
  obtain ⟨l1, hl1, _⟩ := pdzFold_prefix (zonesOf fl) m.resources
  have hud : ∃ l2, (udRes m fl).1 = m.resources ++ l2 := by
    unfold udRes
    split
    · obtain ⟨l2, hl2, _⟩ := udrFold_prefix (wafStage fl m.spokes).1 (pzRes m fl).1
      refine ⟨l1 ++ l2, ?_⟩
      rw [hl2]
      show (pdzFold (zonesOf fl) m.resources).1 ++ l2 = _
      rw [hl1, List.append_assoc]
    · exact ⟨l1, hl1⟩
  obtain ⟨l2, hl2⟩ := hud
  unfold resFinal
  split
  · exact ⟨l2 ++ [pipResource], by rw [hl2, List.append_assoc]⟩
  · exact ⟨l2, hl2⟩

/-- C10: `enforceAzureInvariants` only grows the model: every prior resource
is still present (same element, hence same id and type), the hub/spoke lists
keep their length and every VNet keeps its id and all its subnets (same
position, id and CIDR), and the single-hub field is preserved likewise. -/
theorem C10_frame (m : Model) (fl : Flags) :
    (∃ added, (enforceAzureInvariants m fl).1.resources = m.resources ++ added) ∧
    (∀ r ∈ m.resources, r ∈ (enforceAzureInvariants m fl).1.resources) ∧
    listKeep m.hubs (enforceAzureInvariants m fl).1.hubs ∧
    listKeep m.spokes (enforceAzureInvariants m fl).1.spokes ∧
    (∀ v, m.hub = some v →
      ∃ v2, (enforceAzureInvariants m fl).1.hub = some v2 ∧ vnetKeep v v2) := by
  obtain ⟨added, hadd⟩ := resFinal_prefix m fl
  have hres : (enforceAzureInvariants m fl).1.resources = resFinal m fl := rfl
  refine ⟨⟨added, by rw [hres, hadd]⟩, ?_, ?_, ?_, ?_⟩
  · intro r hr
    rw [hres, hadd]
    exact List.mem_append_left _ hr
  · show listKeep m.hubs (if m.hubs ≠ [] then (hubStages fl (enfHubs m)).1 else m.hubs)
    split
    · rename_i hne
      rw [hubStages_fst_map, enfHubs_of_ne hne]
      exact listKeep_map _ _ (vnetKeep_hubFix fl)
    · exact listKeep_refl _
  · show listKeep m.spokes (spokesFinal m fl)
    exact listKeep_spokesFinal m fl
  · intro v hv
    show ∃ v2, (if m.hubs ≠ [] then m.hub else (hubStages fl (enfHubs m)).1.head?) = some v2
      ∧ vnetKeep v v2
    split
    · exact ⟨v, hv, vnetKeep_refl v⟩
    · rename_i hnil
      have hnil2 : m.hubs = [] := by
        by_contra hc
        exact hnil hc
      rw [hubStages_fst_map, enfHubs_of_nil hnil2, hv]
      exact ⟨hubFix fl v, rfl, vnetKeep_hubFix fl v⟩

theorem C10_frame_witness :
    ({ id := "r1", rtype := "Storage" } : Resource) ∈
      ([{ id := "r1", rtype := "Storage" }] : List Resource) ∧
    ({ id := "r1", rtype := "Storage" } : Resource) ∈
      (enforceAzureInvariants { resources := [{ id := "r1", rtype := "Storage" }] }
        { vpn := true }).1.resources :=
  ⟨by decide,
   (C10_frame { resources := [{ id := "r1", rtype := "Storage" }] } { vpn := true }).2.1
     { id := "r1", rtype := "Storage" } (by decide)⟩

/-! ### Claim C5 — every hub receives the reserved subnets; first hub is the
compatibility representative -/

theorem enforce_hubs_of_ne (mp : Model) (fl : Flags) (hne : mp.hubs ≠ []) :
    (enforceAzureInvariants mp fl).1.hubs = (hubStages fl mp.hubs).1 := by
  show (if mp.hubs ≠ [] then (hubStages fl (enfHubs mp)).1 else mp.hubs) = _
  rw [if_pos hne, enfHubs_of_ne hne]

theorem enforce_hubs_of_nil (mp : Model) (fl : Flags) (hnil : mp.hubs = []) :
    (enforceAzureInvariants mp fl).1.hubs = mp.hubs := by
  show (if mp.hubs ≠ [] then (hubStages fl (enfHubs mp)).1 else mp.hubs) = _
  rw [if_neg (fun hc => hc hnil)]

theorem normalizeModel_hubs (m : Model) (opts : Options) :
    (normalizeModel m opts).hubs =
      (if (aggregateStage m).2.1 ≠ [] then
        (hubStages (flagsOfOptions opts) (aggregateStage m).2.1).1
       else (aggregateStage m).2.1) := by
  show (enforceAzureInvariants (mPreOf m opts) (flagsOfOptions opts)).1.hubs = _
  by_cases hp : (aggregateStage m).2.1 ≠ []
  · rw [if_pos hp]
    exact enforce_hubs_of_ne (mPreOf m opts) _ hp
  · rw [if_neg hp]
    exact enforce_hubs_of_nil (mPreOf m opts) _ (by
      by_contra hc
      exact hp (by exact hc))

theorem normalizeModel_hub_of_ne (m : Model) (opts : Options)
    (hne : (aggregateStage m).2.1 ≠ []) :
    (normalizeModel m opts).hub = (normalizeModel m opts).hubs.head? := by
  show (if (aggregateStage m).2.1 ≠ [] then
      (enforceAzureInvariants (mPreOf m opts) (flagsOfOptions opts)).1.hubs.head?
    else (enforceAzureInvariants (mPreOf m opts) (flagsOfOptions opts)).1.hub) = _
  rw [if_pos hne]
  rfl

theorem exists_of_hasSubnet {v : VNet} {n : String} (h : hasSubnet v n = true) :
    ∃ sn ∈ v.subnets, sn.id = n := by
  unfold hasSubnet at h
  obtain ⟨sn, hmem, hid⟩ := List.any_eq_true.1 h
  exact ⟨sn, hmem, by simpa using hid⟩

/-- C5: when the aggregated model holds more than one hub VNet and a hub-side
feature is requested, EVERY hub in the output hub list carries the matching
reserved subnet, and the single-hub compatibility field is the first hub of
the list. -/
theorem C5_multihub (m : Model) (opts : Options)
    (hlen : 1 < (normalizeModel m opts).hubs.length) :
    (opts.enforceVpn = true →
      ∀ h ∈ (normalizeModel m opts).hubs, ∃ sn ∈ h.subnets, sn.id = "GatewaySubnet") ∧
    (opts.enforceFirewall = true →
      ∀ h ∈ (normalizeModel m opts).hubs, ∃ sn ∈ h.subnets, sn.id = "AzureFirewallSubnet") ∧
    (opts.enforceBastion = true →
      ∀ h ∈ (normalizeModel m opts).hubs, ∃ sn ∈ h.subnets, sn.id = "AzureBastionSubnet") ∧
    (normalizeModel m opts).hub = (normalizeModel m opts).hubs.head? := by
  have hM := normalizeModel_hubs m opts
  by_cases hp : (aggregateStage m).2.1 ≠ []
  · rw [if_pos hp] at hM
    refine ⟨?_, ?_, ?_, normalizeModel_hub_of_ne m opts hp⟩
    · intro hflag h hh
      rw [hM] at hh
      exact exists_of_hasSubnet
        ((hubStages_post (flagsOfOptions opts) (aggregateStage m).2.1 h hh).1 hflag)
    · intro hflag h hh
      rw [hM] at hh
      exact exists_of_hasSubnet
        ((hubStages_post (flagsOfOptions opts) (aggregateStage m).2.1 h hh).2.1 hflag)
    · intro hflag h hh
      rw [hM] at hh
      exact exists_of_hasSubnet
        ((hubStages_post (flagsOfOptions opts) (aggregateStage m).2.1 h hh).2.2 hflag)
  · rw [if_neg hp] at hM
    exfalso
    have hnil : (aggregateStage m).2.1 = [] := by
      by_contra hc
      exact hp hc
    rw [hM, hnil] at hlen
    exact Nat.not_lt.2 (by simp) hlen

theorem C5_multihub_witness :
    1 < (normalizeModel
        { vnets := [{ id := "h1", cidr := "10.0.0.0/16", kind := "hub" },
                    { id := "h2", cidr := "10.9.0.0/16", kind := "hub" }] }
        { enforceVpn := true }).hubs.length ∧
    (normalizeModel
        { vnets := [{ id := "h1", cidr := "10.0.0.0/16", kind := "hub" },
                    { id := "h2", cidr := "10.9.0.0/16", kind := "hub" }] }
        { enforceVpn := true }).hub =
      (normalizeModel
        { vnets := [{ id := "h1", cidr := "10.0.0.0/16", kind := "hub" },
                    { id := "h2", cidr := "10.9.0.0/16", kind := "hub" }] }
        { enforceVpn := true }).hubs.head? :=
  ⟨by decide,
   (C5_multihub
      { vnets := [{ id := "h1", cidr := "10.0.0.0/16", kind := "hub" },
                  { id := "h2", cidr := "10.9.0.0/16", kind := "hub" }] }
      { enforceVpn := true } (by decide)).2.2.2⟩

/-! ### Claim C6 — Private Endpoint for SQL vs. the SQL Private DNS zone -/

theorem remapResourceRefs_types (rs : List Resource) (smap vmap : List (String × String))
    (n : Nat) :
    ∀ r2 ∈ (remapResourceRefs rs smap vmap n).1,
      ∃ r ∈ rs, r2.rtype = r.rtype ∧ r2.targetResourceType = r.targetResourceType := by
  induction rs generalizing n with
  | nil => simp [remapResourceRefs]
  | cons r rest ih =>
    intro r2 h2
    simp only [remapResourceRefs] at h2
    rcases List.mem_cons.1 h2 with rfl | h3
    · exact ⟨r, List.mem_cons_self r rest, rfl, rfl⟩
    · obtain ⟨r1, hm, ht⟩ := ih _ r2 h3
      exact ⟨r1, List.mem_cons_of_mem r hm, ht⟩

theorem retypeResources_types (rs : List Resource) (n : Nat) :
    ∀ r2 ∈ (retypeResources rs n).1,
      ∃ r ∈ rs, r2.rtype = normType r.rtype ∧ r2.targetResourceType = r.targetResourceType := by
  induction rs generalizing n with
  | nil => simp [retypeResources]
  | cons r rest ih =>
    intro r2 h2
    simp only [retypeResources] at h2
    rcases List.mem_cons.1 h2 with rfl | h3
    · exact ⟨r, List.mem_cons_self r rest, rfl, rfl⟩
    · obtain ⟨r1, hm, ht⟩ := ih _ r2 h3
      exact ⟨r1, List.mem_cons_of_mem r hm, ht⟩

theorem dedup_mem {rs : List Resource} {seen : List String} :
    ∀ r ∈ dedupResources rs seen, r ∈ rs := by
  induction rs generalizing seen with
  | nil => simp [dedupResources]
  | cons r rest ih =>
    intro r2 h2
    simp only [dedupResources] at h2
    by_cases hc : seen.contains (resKey r) = true
    · rw [if_pos hc] at h2
      exact List.mem_cons_of_mem r (ih r2 h2)
    · rw [if_neg hc] at h2
      rcases List.mem_cons.1 h2 with rfl | h3
      · exact List.mem_cons_self r2 rest
      · exact List.mem_cons_of_mem r (ih r2 h3)

theorem idOfType_eq_none (rs : List Resource) (t : String) (h : hasType rs t = false) :
    idOfType rs t = none := by
  unfold idOfType
  have : rs.filter (fun r => r.rtype == t) = [] := by
    rw [List.filter_eq_nil_iff]
    intro a ha
    have := List.any_eq_false.1 h a ha
    simpa using this
  rw [this]
  rfl

/-- "It is not a Private Endpoint targeting SQL." -/
def noSqlPE (r : Resource) : Prop :=
  r.rtype = "PrivateEndpoint" → containsSub (toLowerStr r.targetResourceType) "sql" = false

theorem mem_singleton_resource {r x : Resource} (h : r ∈ [x]) : r = x := by
  simpa using h

theorem append_one_keep {rs : List Resource} {x : Resource}
    (hP : ∀ r ∈ rs, noSqlPE r) (hx : noSqlPE x) : ∀ r ∈ rs ++ [x], noSqlPE r := by
  intro r hr
  rcases List.mem_append.1 hr with h | h
  · exact hP r h
  · rw [mem_singleton_resource h]
    exact hx

theorem ensurePEAdd_keep (rs : List Resource) (peId tt : String)
    (htt : containsSub (toLowerStr tt) "sql" = false)
    (hP : ∀ r ∈ rs, noSqlPE r) : ∀ r ∈ ensurePEAdd rs peId tt, noSqlPE r := by
  simp only [ensurePEAdd]
  split
  · exact hP
  · exact append_one_keep hP (fun _ => htt)

theorem ensurePEAdd_hasType (rs : List Resource) (peId tt t : String)
    (ht : t ≠ "PrivateEndpoint") :
    hasType (ensurePEAdd rs peId tt) t = hasType rs t := by
  simp only [ensurePEAdd]
  split
  · rfl
  · refine hasType_append_no _ _ _ ?_
    intro r hr
    rw [mem_singleton_resource hr]
    intro hc
    exact ht hc.symm

theorem applyEnforced_sqlFree (opts : Options) (rs : List Resource)
    (hP : ∀ r ∈ rs, noSqlPE r) (hs : hasType rs "SqlDb" = false) :
    ∀ r ∈ applyEnforcedResources opts rs, noSqlPE r := by
  have q4 : (∀ r ∈ res4Of opts rs, noSqlPE r) ∧ hasType (res4Of opts rs) "SqlDb" = false := by
    unfold res4Of
    split
    · exact ⟨append_one_keep hP (fun hx => absurd hx (by decide)),
        by rw [hasType_append_no _ _ _
          (by intro r hr; rw [mem_singleton_resource hr]; decide)]; exact hs⟩
    · exact ⟨hP, hs⟩
  have q5 : (∀ r ∈ res5Of opts (res4Of opts rs), noSqlPE r) ∧
      hasType (res5Of opts (res4Of opts rs)) "SqlDb" = false := by
    unfold res5Of
    split
    · exact ⟨append_one_keep q4.1 (fun hx => absurd hx (by decide)),
        by rw [hasType_append_no _ _ _
          (by intro r hr; rw [mem_singleton_resource hr]; decide)]; exact q4.2⟩
    · exact q4
  have h6 : res6Of opts (res5Of opts (res4Of opts rs)) = res5Of opts (res4Of opts rs) := by
    unfold res6Of
    split
    · simp only [ensurePEAdd]
      rw [idOfType_eq_none _ _ q5.2]
      rfl
    · rfl
  have q7 : ∀ r ∈ res7Of opts (res6Of opts (res5Of opts (res4Of opts rs))), noSqlPE r := by
    rw [h6]
    unfold res7Of
    split
    · exact ensurePEAdd_keep _ _ _ (by decide) q5.1
    · exact q5.1
  show ∀ r ∈ res8Of opts _, noSqlPE r
  unfold res8Of
  split
  · exact ensurePEAdd_keep _ _ _ (by decide) q7
  · exact q7

theorem hasType_eq_false_of (rs : List Resource) (t : String)
    (h : ∀ r ∈ rs, r.rtype ≠ t) : hasType rs t = false := by
  unfold hasType
  rw [List.any_eq_false]
  intro r hr
  simpa using h r hr

theorem resFinal_prefix_types (mp : Model) (fl : Flags) :
    ∃ added, resFinal mp fl = mp.resources ++ added ∧
      ∀ r ∈ added, r.rtype = "PrivateDnsZone" ∨ r.rtype = "RouteTable" ∨
        r.rtype = "PublicIP" := by
  obtain ⟨l1, hl1, ht1⟩ := pdzFold_prefix (zonesOf fl) mp.resources
  have hud : ∃ l2, (udRes mp fl).1 = mp.resources ++ l2 ∧
      ∀ r ∈ l2, r.rtype = "PrivateDnsZone" ∨ r.rtype = "RouteTable" := by
    unfold udRes
    split
    · obtain ⟨l2, hl2, ht2⟩ := udrFold_prefix (wafStage fl mp.spokes).1 (pzRes mp fl).1
      refine ⟨l1 ++ l2, ?_, ?_⟩
      · rw [hl2]
        show (pdzFold (zonesOf fl) mp.resources).1 ++ l2 = _
        rw [hl1, List.append_assoc]
      · intro r hr
        rcases List.mem_append.1 hr with h | h
        · exact Or.inl (ht1 r h)
        · exact Or.inr (ht2 r h)
    · exact ⟨l1, hl1, fun r hr => Or.inl (ht1 r hr)⟩
  obtain ⟨l2, hl2, ht2⟩ := hud
  unfold resFinal
  split
  · refine ⟨l2 ++ [pipResource], ?_, ?_⟩
    · rw [hl2, List.append_assoc]
    · intro r hr
      rcases List.mem_append.1 hr with h | h
      · rcases ht2 r h with h2 | h2
        · exact Or.inl h2
        · exact Or.inr (Or.inl h2)
      · rw [mem_singleton_resource h]
        exact Or.inr (Or.inr rfl)
  · exact ⟨l2, hl2, fun r hr => (ht2 r hr).elim Or.inl (fun h2 => Or.inr (Or.inl h2))⟩

theorem mem_resFinal_of_pz (mp : Model) (fl : Flags) {r : Resource}
    (h : r ∈ (pzRes mp fl).1) : r ∈ resFinal mp fl := by
  have hud : r ∈ (udRes mp fl).1 := by
    unfold udRes
    split
    · obtain ⟨l2, hl2, _⟩ := udrFold_prefix (wafStage fl mp.spokes).1 (pzRes mp fl).1
      rw [hl2]
      exact List.mem_append_left _ h
    · exact h
  unfold resFinal
  split
  · exact List.mem_append_left _ hud
  · exact hud

/-- C6 counterexample: with `privateEndpointSql=true` and no SqlDb anywhere,
the SQL Private DNS zone IS created — zone creation is driven purely by the
flag (`invariants.ts` 69–87), contradicting the claim's second half. -/
theorem C6_counterexample :
    ∃ r ∈ (normalizeModel {} { enforcePE := { sql := true } }).resources,
      r.rtype = "PrivateDnsZone" ∧ r.zoneName = "privatelink.database.windows.net" := by
  refine ⟨{ rtype := "PrivateDnsZone", id := "pdz-privatelink-database-windows-net",
            label := "privatelink.database.windows.net",
            zoneName := "privatelink.database.windows.net" }, ?_, rfl, rfl⟩
  decide

/-- C6 amended: with `privateEndpointSql=true` and no resource normalizing to
SqlDb (and none normalizing to PrivateEndpoint, so that presence equals
creation), the pipeline creates NO Private Endpoint targeting SQL — but it
DOES create the `privatelink.database.windows.net` Private DNS zone, because
zone creation depends only on the flag, not on target presence. -/
theorem C6_amended (m : Model) (opts : Options)
    (hsql : ∀ r ∈ m.resources, normType r.rtype ≠ "SqlDb")
    (hpe : ∀ r ∈ m.resources, normType r.rtype ≠ "PrivateEndpoint")
    (hflag : opts.enforcePE.sql = true) :
    (∀ r ∈ (normalizeModel m opts).resources, noSqlPE r) ∧
    (∃ r ∈ (normalizeModel m opts).resources,
      r.rtype = "PrivateDnsZone" ∧ r.zoneName = "privatelink.database.windows.net") := by
  have h1 : ∀ r2 ∈ (aggregateStage m).2.2.2.2.2.1,
      ∃ r ∈ m.resources, r2.rtype = r.rtype ∧ r2.targetResourceType = r.targetResourceType :=
    remapResourceRefs_types m.resources _ _ _
  have h2 : ∀ r2 ∈ (retypeResources (aggregateStage m).2.2.2.2.2.1
      (aggregateStage m).2.2.2.2.2.2).1, r2.rtype ≠ "SqlDb" ∧ r2.rtype ≠ "PrivateEndpoint" := by
    intro r2 hr2
    obtain ⟨r1, hm1, he1, _⟩ := retypeResources_types _ _ r2 hr2
    obtain ⟨r0, hm0, he0, _⟩ := h1 r1 hm1
    rw [he1, he0]
    exact ⟨hsql r0 hm0, hpe r0 hm0⟩
  have h3 : ∀ r2 ∈ dedupResources (retypeResources (aggregateStage m).2.2.2.2.2.1
      (aggregateStage m).2.2.2.2.2.2).1 [], r2.rtype ≠ "SqlDb" ∧ r2.rtype ≠ "PrivateEndpoint" :=
    fun r2 hr2 => h2 r2 (dedup_mem r2 hr2)
  have h5 : ∀ r ∈ (mPreOf m opts).resources, noSqlPE r := by
    show ∀ r ∈ resourcesStage opts _ _, noSqlPE r
    unfold resourcesStage
    exact applyEnforced_sqlFree opts _
      (fun r hr => fun hc => absurd hc (h3 r hr).2)
      (hasType_eq_false_of _ _ (fun r hr => (h3 r hr).1))
  constructor
  · show ∀ r ∈ resFinal (mPreOf m opts) (flagsOfOptions opts), noSqlPE r
    obtain ⟨added, hadd, htypes⟩ := resFinal_prefix_types (mPreOf m opts) (flagsOfOptions opts)
    rw [hadd]
    intro r hr
    rcases List.mem_append.1 hr with h | h
    · exact h5 r h
    · intro hc
      rcases htypes r h with h2 | h2 | h2 <;> rw [hc] at h2 <;> exact absurd h2 (by decide)
  · show ∃ r ∈ resFinal (mPreOf m opts) (flagsOfOptions opts), _
    have hz : "privatelink.database.windows.net" ∈ zonesOf (flagsOfOptions opts) := by
      simp [zonesOf, flagsOfOptions, hflag]
    have hcov := pdzFold_covers (zonesOf (flagsOfOptions opts)) (mPreOf m opts).resources _ hz
    obtain ⟨r, hmem, hpred⟩ := List.any_eq_true.1 hcov
    rw [Bool.and_eq_true] at hpred
    obtain ⟨hp1, hp2⟩ := hpred
    exact ⟨r, mem_resFinal_of_pz (mPreOf m opts) (flagsOfOptions opts) hmem,
      by simpa using hp1, by simpa using hp2⟩

theorem C6_amended_witness :
    (∀ r ∈ (Model.resources {}), normType r.rtype ≠ "SqlDb") ∧
    (∃ r ∈ (normalizeModel {} { enforcePE := { sql := true } }).resources,
      r.rtype = "PrivateDnsZone" ∧ r.zoneName = "privatelink.database.windows.net") :=
  ⟨by decide,
   (C6_amended {} { enforcePE := { sql := true } } (by decide) (by decide) rfl).2⟩

/-! ### Claim C4 — id uniqueness -/

/-- An id the sanitizer leaves untouched (and that does not trigger the
generated-id fallback). -/
def GoodId (s : String) : Prop := idSafe s = s ∧ s ≠ "" ∧ s ≠ "_"

instance (s : String) : Decidable (GoodId s) :=
  inferInstanceAs (Decidable (idSafe s = s ∧ s ≠ "" ∧ s ≠ "_"))

theorem ensureId_of_good {s : String} (h : GoodId s) (n : Nat) : ensureId s n = (s, n) := by
  have hc : idSafe s ≠ "" ∧ idSafe s ≠ "_" := by
    rw [h.1]
    exact ⟨h.2.1, h.2.2⟩
  show (if idSafe s ≠ "" ∧ idSafe s ≠ "_" then (idSafe s, n) else _) = (s, n)
  rw [if_pos hc, h.1]

theorem renameSubnets_good : ∀ (sns : List Subnet) (smap : List (String × String)) (n : Nat),
    (∀ sn ∈ sns, GoodId sn.id) → renameSubnets sns smap n = (sns, smap, n)
  | [], _, _, _ => rfl
  | sn :: rest, smap, n, h => by
    have h1 := ensureId_of_good (h sn (List.mem_cons_self _ _)) n
    have ihr := renameSubnets_good rest smap n (fun s hs => h s (List.mem_cons_of_mem _ hs))
    simp [renameSubnets, h1, ihr]

theorem renameVnets_good : ∀ (vs : List VNet) (vmap smap : List (String × String)) (n : Nat),
    (∀ v ∈ vs, GoodId v.id ∧ ∀ sn ∈ v.subnets, GoodId sn.id) →
    renameVnets vs vmap smap n = (vs, vmap, smap, n)
  | [], _, _, _, _ => rfl
  | v :: rest, vmap, smap, n, h => by
    have h1 := ensureId_of_good (h v (List.mem_cons_self _ _)).1 n
    have h2 := renameSubnets_good v.subnets smap n (h v (List.mem_cons_self _ _)).2
    have ihr := renameVnets_good rest vmap smap n (fun w hw => h w (List.mem_cons_of_mem _ hw))
    simp [renameVnets, h1, h2, ihr]

theorem remapResourceRefs_ids (rs : List Resource) (smap vmap : List (String × String))
    (n : Nat) : ((remapResourceRefs rs smap vmap n).1).map Resource.id = rs.map Resource.id := by
  induction rs generalizing n with
  | nil => rfl
  | cons r rest ih =>
    simp only [remapResourceRefs, List.map_cons]
    rw [ih]

theorem retypeResources_ids_good : ∀ (rs : List Resource) (n : Nat),
    (∀ r ∈ rs, GoodId r.id) →
    ((retypeResources rs n).1).map Resource.id = rs.map Resource.id
  | [], _, _ => rfl
  | r :: rest, n, h => by
    have h1 := ensureId_of_good (h r (List.mem_cons_self _ _)) n
    have ihr := retypeResources_ids_good rest n (fun s hs => h s (List.mem_cons_of_mem _ hs))
    simp [retypeResources, h1, ihr]

theorem retypeResources_good_ids : ∀ (rs : List Resource) (n : Nat),
    (∀ r ∈ rs, GoodId r.id) →
    ∀ r2 ∈ (retypeResources rs n).1, GoodId r2.id
  | [], _, _ => by simp [retypeResources]
  | r :: rest, n, h => by
    have h1 := ensureId_of_good (h r (List.mem_cons_self _ _)) n
    intro r2 h2
    simp only [retypeResources, h1] at h2
    rcases List.mem_cons.1 h2 with rfl | h3
    · exact h r (List.mem_cons_self _ _)
    · exact retypeResources_good_ids rest n (fun s hs => h s (List.mem_cons_of_mem _ hs)) r2 h3

theorem remapResourceRefs_good_ids (rs : List Resource) (smap vmap : List (String × String))
    (n : Nat) (h : ∀ r ∈ rs, GoodId r.id) :
    ∀ r2 ∈ (remapResourceRefs rs smap vmap n).1, GoodId r2.id := by
  induction rs generalizing n with
  | nil => simp [remapResourceRefs]
  | cons r rest ih =>
    intro r2 h2
    simp only [remapResourceRefs] at h2
    rcases List.mem_cons.1 h2 with rfl | h3
    · exact h r (List.mem_cons_self _ _)
    · exact ih _ (fun s hs => h s (List.mem_cons_of_mem _ hs)) r2 h3

theorem dedup_sublist : ∀ (rs : List Resource) (seen : List String),
    List.Sublist (dedupResources rs seen) rs
  | [], _ => List.Sublist.refl _
  | r :: rest, seen => by
    simp only [dedupResources]
    split
    · exact List.Sublist.cons r (dedup_sublist rest seen)
    · exact List.Sublist.cons₂ r (dedup_sublist rest _)

theorem vnetApply_off (fl : Flags) (hw : fl.waf = false) (hv : fl.vpn = false)
    (hf : fl.firewall = false) (hb : fl.bastion = false) (v : VNet) : vnetApply fl v = v := by
  unfold vnetApply hubFix spokeFix
  rw [hw, hv, hf, hb]
  simp

theorem selectHub_vnets_sub (hub0 : Option VNet) (av : List VNet) (n : Nat) :
    (selectHub hub0 av (av.filter (fun v => v.kind == "hub"))
        (av.filter (fun v => v.kind == "spoke")) n).2.2.1 = av ∨
    (selectHub hub0 av (av.filter (fun v => v.kind == "hub"))
        (av.filter (fun v => v.kind == "spoke")) n).2.2.1 =
      { id := "hub", label := "Hub", cidr := "10.0.0.0/16", kind := "hub",
        subnets := [] } :: av.filter (fun v => v.kind == "spoke") := by
  unfold selectHub
  split
  · exact Or.inl rfl
  · cases hub0 with
    | some h => exact Or.inl rfl
    | none =>
      right
      have hd := ensureId_of_good (s := "hub") (by decide) n
      simp [hd]

theorem aggregateStage_vnets_char (m : Model)
    (hg : ∀ v ∈ aggVnets m, GoodId v.id ∧ ∀ sn ∈ v.subnets, GoodId sn.id) :
    (aggregateStage m).2.2.1 = aggVnets m ∨
    (aggregateStage m).2.2.1 =
      { id := "hub", label := "Hub", cidr := "10.0.0.0/16", kind := "hub",
        subnets := [] } :: (aggVnets m).filter (fun v => v.kind == "spoke") := by
  have hagg := renameVnets_good (aggVnets m) [] [] 0 hg
  simp only [aggregateStage, hagg]
  exact selectHub_vnets_sub _ _ _

theorem aggregateStage_res_char (m : Model)
    (hg : ∀ v ∈ aggVnets m, GoodId v.id ∧ ∀ sn ∈ v.subnets, GoodId sn.id) :
    ∃ n : Nat, (aggregateStage m).2.2.2.2.2.1 = (remapResourceRefs m.resources [] [] n).1 := by
  have hagg := renameVnets_good (aggVnets m) [] [] 0 hg
  apply Exists.intro
  simp only [aggregateStage, hagg]
  rfl

theorem resourcesStage_nodup (opts : Options) (rs : List Resource) (n : Nat)
    (hg : ∀ r ∈ rs, GoodId r.id) (hnd : (rs.map Resource.id).Nodup)
    (hw : opts.enforceWaf = false) (hv : opts.enforceVpn = false)
    (hsql : opts.enforcePE.sql = false) (hst : opts.enforcePE.storage = false)
    (hkv : opts.enforcePE.kv = false) :
    ((resourcesStage opts rs n).map Resource.id).Nodup ∧
    (∀ r ∈ resourcesStage opts rs n, GoodId r.id) := by
  unfold resourcesStage applyEnforcedResources res4Of res5Of res6Of res7Of res8Of
  simp only [hw, hv, hsql, hst, hkv, false_and, if_false]
  constructor
  · have hsub := ((dedup_sublist (retypeResources rs n).1 []).map Resource.id)
    rw [retypeResources_ids_good rs n hg] at hsub
    exact hnd.sublist hsub
  · intro r hr
    exact retypeResources_good_ids rs n hg r ((dedup_sublist _ _).subset hr)

theorem udRes_off (m : Model) (fl : Flags) (hf : fl.firewall = false)
    (hsql : fl.privateEndpointSql = false) (hst : fl.privateEndpointStorage = false)
    (hkv : fl.privateEndpointKeyVault = false) : (udRes m fl).1 = m.resources := by
  simp [udRes, pzRes, zonesOf, hf, hsql, hst, hkv, pdzFold]

theorem resFinal_off (m : Model) (fl : Flags) (hf : fl.firewall = false)
    (hsql : fl.privateEndpointSql = false) (hst : fl.privateEndpointStorage = false)
    (hkv : fl.privateEndpointKeyVault = false) :
    resFinal m fl = if pipNeededOf m fl then m.resources ++ [pipResource]
                    else m.resources := by
  rw [resFinal, udRes_off m fl hf hsql hst hkv]

theorem nodup_append_pip (rs : List Resource) (hnd : (rs.map Resource.id).Nodup)
    (hg : ∀ r ∈ rs, GoodId r.id) : ((rs ++ [pipResource]).map Resource.id).Nodup := by
  rw [List.map_append, List.nodup_append]
  refine ⟨hnd, List.nodup_singleton _, ?_⟩
  intro a ha hb
  obtain ⟨r, hr, rfl⟩ := List.mem_map.1 ha
  have hgr := hg r hr
  simp only [List.map_cons, List.map_nil, List.mem_singleton] at hb
  rw [hb] at hgr
  exact absurd hgr (by decide)

/-- C4 counterexample input: two VNets carrying the same (already sanitized)
id survive normalization with duplicate ids. -/
def mC4bad : Model :=
  { vnets := [{ id := "a", kind := "hub" }, { id := "a", kind := "spoke" }] }

/-- C4: `normalizeModel` does NOT make VNet ids pairwise distinct for every
input: duplicate pre-sanitized ids pass through `ensureId` untouched
(`ensureIdFactory` never checks for previously issued ids). -/
theorem C4_counterexample :
    ¬ (((normalizeModel mC4bad {}).vnets.map VNet.id).Nodup) := by decide

/-- C4 (amended): when no enforcement option is requested, every aggregated
VNet id and subnet id is sanitizer-stable (`GoodId`) and pairwise distinct,
no VNet is named "hub", and resource ids are `GoodId` and pairwise distinct,
then the normalized model has pairwise-distinct VNet ids, per-VNet distinct
subnet ids, and globally distinct resource ids. -/
theorem C4_amended (m : Model) (opts : Options)
    (hw : opts.enforceWaf = false) (hv : opts.enforceVpn = false)
    (hf : opts.enforceFirewall = false) (hb : opts.enforceBastion = false)
    (hsql : opts.enforcePE.sql = false) (hst : opts.enforcePE.storage = false)
    (hkv : opts.enforcePE.kv = false)
    (hgood : ∀ v ∈ aggVnets m, GoodId v.id ∧ ∀ sn ∈ v.subnets, GoodId sn.id)
    (hvn : ((aggVnets m).map VNet.id).Nodup)
    (hsn : ∀ v ∈ aggVnets m, (v.subnets.map Subnet.id).Nodup)
    (hrg : ∀ r ∈ m.resources, GoodId r.id)
    (hrn : ((m.resources).map Resource.id).Nodup)
    (hnh : ∀ v ∈ aggVnets m, v.id ≠ "hub") :
    (((normalizeModel m opts).vnets.map VNet.id).Nodup) ∧
    (∀ v ∈ (normalizeModel m opts).vnets, (v.subnets.map Subnet.id).Nodup) ∧
    (((normalizeModel m opts).resources.map Resource.id).Nodup) := by
  have hvapp : vnetApply (flagsOfOptions opts) = id :=
    funext (vnetApply_off (flagsOfOptions opts) hw hv hf hb)
  have hvnets : (normalizeModel m opts).vnets = (aggregateStage m).2.2.1 := by
    show (aggregateStage m).2.2.1.map (vnetApply (flagsOfOptions opts)) = _
    rw [hvapp, List.map_id]
  have hres : (normalizeModel m opts).resources
      = resFinal (mPreOf m opts) (flagsOfOptions opts) := rfl
  obtain ⟨n0, hagR⟩ := aggregateStage_res_char m hgood
  have hgood2 : ∀ r ∈ (aggregateStage m).2.2.2.2.2.1, GoodId r.id := by
    rw [hagR]
    exact remapResourceRefs_good_ids _ _ _ _ hrg
  have hnd2 : (((aggregateStage m).2.2.2.2.2.1).map Resource.id).Nodup := by
    rw [hagR, remapResourceRefs_ids]
    exact hrn
  obtain ⟨hnd3, hgood3⟩ := resourcesStage_nodup opts (aggregateStage m).2.2.2.2.2.1
    (aggregateStage m).2.2.2.2.2.2 hgood2 hnd2 hw hv hsql hst hkv
  have hnd4 : (((mPreOf m opts).resources).map Resource.id).Nodup := hnd3
  have hgood4 : ∀ r ∈ (mPreOf m opts).resources, GoodId r.id := hgood3
  refine ⟨?_, ?_, ?_⟩
  · rw [hvnets]
    rcases aggregateStage_vnets_char m hgood with hA | hA
    · rw [hA]
      exact hvn
    · rw [hA, List.map_cons]
      rw [List.nodup_cons]
      refine ⟨?_, ?_⟩
      · intro hmem
        obtain ⟨v, hvmem, hvid⟩ := List.mem_map.1 hmem
        exact hnh v (List.mem_of_mem_filter hvmem) hvid
      · exact hvn.sublist ((List.filter_sublist _).map _)
  · rw [hvnets]
    rcases aggregateStage_vnets_char m hgood with hA | hA
    · rw [hA]
      exact hsn
    · rw [hA]
      intro v hvmem
      rcases List.mem_cons.1 hvmem with rfl | h2
      · exact List.nodup_nil
      · exact hsn v (List.mem_of_mem_filter h2)
  · rw [hres, resFinal_off _ _ hf hsql hst hkv]
    by_cases hp : pipNeededOf (mPreOf m opts) (flagsOfOptions opts) = true
    · rw [if_pos hp]
      exact nodup_append_pip _ hnd4 hgood4
    · rw [if_neg hp]
      exact hnd4

/-- Concrete witness input for the amended C4. -/
def mC4w : Model :=
  { vnets := [{ id := "h1", kind := "hub",
                subnets := [{ id := "s1", cidr := "10.0.0.0/24" },
                            { id := "s2", cidr := "10.0.1.0/24" }] },
              { id := "sp1", kind := "spoke",
                subnets := [{ id := "s3", cidr := "10.1.0.0/24" }] }],
    resources := [{ id := "r1", rtype := "AppService" },
                  { id := "r2", rtype := "SqlDb" }] }

theorem C4_amended_witness :
    (((normalizeModel mC4w {}).vnets.map VNet.id).Nodup) ∧
    (∀ v ∈ (normalizeModel mC4w {}).vnets, (v.subnets.map Subnet.id).Nodup) ∧
    (((normalizeModel mC4w {}).resources.map Resource.id).Nodup) :=
  C4_amended mC4w {} rfl rfl rfl rfl rfl rfl rfl (by decide) (by decide) (by decide)
    (by decide) (by decide) (by decide)

/-! ### Claim C1 — idempotence groundwork: the sanitizer is idempotent and
generated ids are sanitizer-stable -/

theorem word_not_space (c : Char) (h : isWordChar c = true) : isJsSpace c = false := by
  unfold isWordChar at h
  unfold isJsSpace
  simp only [Bool.or_eq_true, Bool.and_eq_true, decide_eq_true_eq] at h
  rw [decide_eq_false_iff_not]
  simp only [List.mem_cons, List.not_mem_nil, or_false]
  omega

theorem dropWhile_no {p : Char → Bool} : ∀ l : List Char,
    (∀ c ∈ l, p c = false) → l.dropWhile p = l
  | [], _ => rfl
  | a :: l, h => by
    simp [List.dropWhile, h a (List.mem_cons_self _ _)]

theorem jsTrimList_id_of (l : List Char) (h : ∀ c ∈ l, isJsSpace c = false) :
    jsTrimList l = l := by
  unfold jsTrimList
  rw [dropWhile_no l h]
  rw [dropWhile_no l.reverse (fun c hc => h c (List.mem_reverse.1 hc))]
  exact List.reverse_reverse l

theorem idSafe_chars (s : String) : ∀ c ∈ (idSafe s).data, isWordChar c = true := by
  intro c hc
  have hd : (idSafe s).data
      = (jsTrimList s.data).map (fun c => if isWordChar c then c else '_') := rfl
  rw [hd] at hc
  obtain ⟨a, _, rfl⟩ := List.mem_map.1 hc
  by_cases hw : isWordChar a = true
  · simp [hw]
  · rw [if_neg hw]
    decide

theorem idSafe_word_fix (s : String) (h : ∀ c ∈ s.data, isWordChar c = true) :
    idSafe s = s := by
  have hl : (jsTrimList s.data).map (fun c => if isWordChar c then c else '_') = s.data := by
    rw [jsTrimList_id_of s.data (fun c hc => word_not_space c (h c hc))]
    exact list_map_self _ _ (fun c hc => by simp [h c hc])
  exact congrArg String.mk hl

theorem idSafe_idem (s : String) : idSafe (idSafe s) = idSafe s :=
  idSafe_word_fix (idSafe s) (idSafe_chars s)

theorem digitChar_word (k : Nat) : isWordChar (digitChar k) = true := by
  unfold digitChar
  split <;> decide

theorem natDigitsAux_word : ∀ (fuel n : Nat), ∀ c ∈ natDigitsAux fuel n, isWordChar c = true
  | 0, _ => by simp [natDigitsAux]
  | fuel + 1, n => by
    intro c hc
    simp only [natDigitsAux] at hc
    by_cases hn : n < 10
    · rw [if_pos hn] at hc
      rcases List.mem_singleton.1 hc with rfl
      exact digitChar_word n
    · rw [if_neg hn] at hc
      rcases List.mem_append.1 hc with h1 | h1
      · exact natDigitsAux_word fuel (n / 10) c h1
      · rcases List.mem_singleton.1 h1 with rfl
        exact digitChar_word (n % 10)

theorem genId_good (k : Nat) : GoodId ("n" ++ natStr k) := by
  have hd : ("n" ++ natStr k).data = 'n' :: natDigits k := by
    rw [String.data_append]
    rfl
  refine ⟨?_, ?_, ?_⟩
  · refine idSafe_word_fix _ ?_
    rw [hd]
    intro c hc
    rcases List.mem_cons.1 hc with rfl | h1
    · decide
    · exact natDigitsAux_word _ _ c h1
  · intro h
    have := congrArg String.data h
    rw [hd] at this
    cases this
  · intro h
    have := congrArg String.data h
    rw [hd] at this
    have hh := congrArg (List.head?) this
    simp at hh

theorem ensureId_out_good (s : String) (n : Nat) : GoodId (ensureId s n).1 := by
  simp only [ensureId]
  split
  · rename_i hc
    exact ⟨idSafe_idem s, hc.1, hc.2⟩
  · exact genId_good n

theorem mem_ite {α : Type} {L : List α} {c : Prop} [Decidable c] {a b : α}
    (ha : a ∈ L) (hb : b ∈ L) : (if c then a else b) ∈ L := by
  by_cases h : c
  · rwa [if_pos h]
  · rwa [if_neg h]

theorem normType_range (t : String) :
    normType t ∈ ["AppGateway", "AzureFirewall", "VpnGateway", "ExpressRouteGateway",
      "Bastion", "AppService", "SqlDb", "CosmosDb", "Storage", "KeyVault",
      "TrafficManager", "NetworkSecurityGroup", "RouteTable", "PrivateEndpoint",
      "PrivateDnsZone"] := by
  simp only [normType]
  repeat' apply mem_ite
  all_goals decide

theorem normType_idem_of (t : String) (h : normType t ≠ "NetworkSecurityGroup") :
    normType (normType t) = normType t := by
  have hr := normType_range t
  simp only [List.mem_cons, List.not_mem_nil, or_false] at hr
  rcases hr with h1|h1|h1|h1|h1|h1|h1|h1|h1|h1|h1|h1|h1|h1|h1
  all_goals first
    | (exact absurd h1 h)
    | (rw [h1]; decide)

theorem contains_mem_str {l : List String} {a : String} : l.contains a = true ↔ a ∈ l := by
  show l.elem a = true ↔ a ∈ l
  exact List.elem_iff

theorem remapRef_nil_good {s : String} (h : GoodId s) (n : Nat) : remapRef [] s n = (s, n) := by
  show ensureId s n = (s, n)
  exact ensureId_of_good h n

theorem remapRef_out_good {mp : List (String × String)} (hm : ∀ e ∈ mp, GoodId e.2)
    (s : String) (n : Nat) : GoodId (remapRef mp s n).1 := by
  unfold remapRef
  cases hfind : mapGet mp s with
  | none => exact ensureId_out_good s n
  | some v =>
    show GoodId (if v ≠ "" then (v, n) else ensureId s n).1
    by_cases hv : v ≠ ""
    · rw [if_pos hv]
      obtain ⟨e, he, hev⟩ := Option.map_eq_some'.1 hfind
      exact hev ▸ hm e (List.mem_of_find?_eq_some he)
    · rw [if_neg hv]
      exact ensureId_out_good s n

theorem remapLinks_nil_id : ∀ (lks : List String) (n : Nat), (∀ lk ∈ lks, GoodId lk) →
    remapLinks lks [] n = (lks, n)
  | [], _, _ => rfl
  | lk :: rest, n, h => by
    have h1 := remapRef_nil_good (h lk (List.mem_cons_self _ _)) n
    have ihr := remapLinks_nil_id rest n (fun l hl => h l (List.mem_cons_of_mem _ hl))
    simp [remapLinks, h1, ihr]

theorem remapLinks_out_good (mp : List (String × String)) (hm : ∀ e ∈ mp, GoodId e.2) :
    ∀ (lks : List String) (n : Nat), ∀ l2 ∈ (remapLinks lks mp n).1, GoodId l2
  | [], _ => by simp [remapLinks]
  | lk :: rest, n => by
    intro l2 h2
    simp only [remapLinks] at h2
    rcases List.mem_cons.1 h2 with rfl | h3
    · exact remapRef_out_good hm lk n
    · exact remapLinks_out_good mp hm rest _ l2 h3

theorem remapPeerings_nil_id : ∀ (ps : List Peering) (n : Nat),
    (∀ p ∈ ps, GoodId p.fromVnetId ∧ GoodId p.toVnetId) → remapPeerings ps [] n = (ps, n)
  | [], _, _ => rfl
  | p :: rest, n, h => by
    have h1 := remapRef_nil_good (h p (List.mem_cons_self _ _)).1 n
    have h2 := remapRef_nil_good (h p (List.mem_cons_self _ _)).2 n
    have ihr := remapPeerings_nil_id rest n (fun q hq => h q (List.mem_cons_of_mem _ hq))
    simp [remapPeerings, h1, h2, ihr]

theorem remapPeerings_out_good (mp : List (String × String)) (hm : ∀ e ∈ mp, GoodId e.2) :
    ∀ (ps : List Peering) (n : Nat), ∀ p2 ∈ (remapPeerings ps mp n).1,
      GoodId p2.fromVnetId ∧ GoodId p2.toVnetId
  | [], _ => by simp [remapPeerings]
  | p :: rest, n => by
    intro p2 h2
    simp only [remapPeerings] at h2
    rcases List.mem_cons.1 h2 with rfl | h3
    · exact ⟨remapRef_out_good hm _ _, remapRef_out_good hm _ _⟩
    · exact remapPeerings_out_good mp hm rest _ p2 h3

theorem remapRR_nil_id : ∀ (rs : List Resource) (n : Nat),
    (∀ r ∈ rs, (r.subnetId = "" ∨ GoodId r.subnetId) ∧
      (r.rtype = "PrivateDnsZone" → ∀ lk ∈ r.links, GoodId lk)) →
    remapResourceRefs rs [] [] n = (rs, n)
  | [], _, _ => rfl
  | r :: rest, n, h => by
    obtain ⟨hsub, hlk⟩ := h r (List.mem_cons_self _ _)
    have ihr := remapRR_nil_id rest n (fun x hx => h x (List.mem_cons_of_mem _ hx))
    have h1 : (if r.subnetId ≠ "" then remapRef [] r.subnetId n else (r.subnetId, n))
        = (r.subnetId, n) := by
      by_cases hne : r.subnetId ≠ ""
      · rw [if_pos hne]
        rcases hsub with he | hg
        · exact absurd he hne
        · exact remapRef_nil_good hg n
      · rw [if_neg hne]
    have h2 : (if r.rtype = "PrivateDnsZone" then remapLinks r.links [] n
        else (r.links, n)) = (r.links, n) := by
      by_cases hp : r.rtype = "PrivateDnsZone"
      · rw [if_pos hp]
        exact remapLinks_nil_id r.links n (hlk hp)
      · rw [if_neg hp]
    simp [remapResourceRefs, h1, h2, ihr]

theorem remapRR_char (smap vmap : List (String × String)) (hs : ∀ e ∈ smap, GoodId e.2)
    (hv : ∀ e ∈ vmap, GoodId e.2) : ∀ (rs : List Resource) (n : Nat),
    ∀ r2 ∈ (remapResourceRefs rs smap vmap n).1, ∃ r ∈ rs,
      r2.id = r.id ∧ r2.rtype = r.rtype ∧ r2.label = r.label ∧
      (r2.subnetId = "" ∨ GoodId r2.subnetId) ∧
      (∀ lk ∈ r2.links, GoodId lk ∨ lk ∈ r.links)
  | [], _ => by simp [remapResourceRefs]
  | r :: rest, n => by
    intro r2 h2
    simp only [remapResourceRefs] at h2
    have hS : (if r.subnetId ≠ "" then remapRef smap r.subnetId n else (r.subnetId, n)).1 = ""
        ∨ GoodId (if r.subnetId ≠ "" then remapRef smap r.subnetId n
                  else (r.subnetId, n)).1 := by
      by_cases hne : r.subnetId ≠ ""
      · rw [if_pos hne]
        exact Or.inr (remapRef_out_good hs _ _)
      · rw [if_neg hne]
        exact Or.inl (not_ne_iff.1 hne)
    have hL : ∀ (k : Nat),
        ∀ lk ∈ (if r.rtype = "PrivateDnsZone" then remapLinks r.links vmap k
                 else (r.links, k)).1, GoodId lk ∨ lk ∈ r.links := by
      intro k lk hlk
      by_cases hp : r.rtype = "PrivateDnsZone"
      · rw [if_pos hp] at hlk
        exact Or.inl (remapLinks_out_good vmap hv r.links k lk hlk)
      · rw [if_neg hp] at hlk
        exact Or.inr hlk
    rcases List.mem_cons.1 h2 with rfl | h3
    · exact ⟨r, List.mem_cons_self _ _, rfl, rfl, rfl, hS, hL _⟩
    · obtain ⟨r1, hm1, hr1⟩ := remapRR_char smap vmap hs hv rest _ r2 h3
      exact ⟨r1, List.mem_cons_of_mem _ hm1, hr1⟩

theorem retypeRR_char : ∀ (rs : List Resource) (n : Nat),
    ∀ r2 ∈ (retypeResources rs n).1, ∃ r ∈ rs,
      GoodId r2.id ∧ r2.rtype = normType r.rtype ∧ r2.label = r.label ∧
      r2.subnetId = r.subnetId ∧ r2.links = r.links
  | [], _ => by simp [retypeResources]
  | r :: rest, n => by
    intro r2 h2
    simp only [retypeResources] at h2
    rcases List.mem_cons.1 h2 with rfl | h3
    · exact ⟨r, List.mem_cons_self _ _, ensureId_out_good r.id n, rfl, rfl, rfl, rfl⟩
    · obtain ⟨r1, hm1, hr1⟩ := retypeRR_char rest _ r2 h3
      exact ⟨r1, List.mem_cons_of_mem _ hm1, hr1⟩

theorem retypeResources_id_of : ∀ (rs : List Resource) (n : Nat),
    (∀ r ∈ rs, GoodId r.id ∧ normType r.rtype = r.rtype) → retypeResources rs n = (rs, n)
  | [], _, _ => rfl
  | r :: rest, n, h => by
    obtain ⟨hid, hty⟩ := h r (List.mem_cons_self _ _)
    have h1 := ensureId_of_good hid n
    have ihr := retypeResources_id_of rest n (fun x hx => h x (List.mem_cons_of_mem _ hx))
    simp [retypeResources, h1, ihr, hty]

theorem dedup_keys : ∀ (rs : List Resource) (seen : List String),
    (((dedupResources rs seen).map resKey).Nodup) ∧
    (∀ k ∈ (dedupResources rs seen).map resKey, k ∉ seen)
  | [], _ => ⟨List.nodup_nil, by simp [dedupResources]⟩
  | r :: rest, seen => by
    simp only [dedupResources]
    by_cases hc : seen.contains (resKey r) = true
    · rw [if_pos hc]
      exact dedup_keys rest seen
    · rw [if_neg hc]
      have ih := dedup_keys rest (resKey r :: seen)
      constructor
      · rw [List.map_cons, List.nodup_cons]
        refine ⟨?_, ih.1⟩
        intro hmem
        exact (ih.2 _ hmem) (List.mem_cons_self _ _)
      · intro k hk
        rw [List.map_cons] at hk
        rcases List.mem_cons.1 hk with rfl | h3
        · intro hmem
          exact hc (contains_mem_str.2 hmem)
        · intro hmem
          exact (ih.2 k h3) (List.mem_cons_of_mem _ hmem)

theorem dedup_id_of : ∀ (rs : List Resource) (seen : List String),
    ((rs.map resKey).Nodup) → (∀ r ∈ rs, resKey r ∉ seen) → dedupResources rs seen = rs
  | [], _, _, _ => rfl
  | r :: rest, seen, hnd, hns => by
    have hc : ¬ seen.contains (resKey r) = true := fun hcc =>
      hns r (List.mem_cons_self _ _) (contains_mem_str.1 hcc)
    rw [List.map_cons, List.nodup_cons] at hnd
    have ih := dedup_id_of rest (resKey r :: seen) hnd.2 (by
      intro x hx hmem
      rcases List.mem_cons.1 hmem with he | hseen
      · exact hnd.1 (he ▸ List.mem_map_of_mem resKey hx)
      · exact hns x (List.mem_cons_of_mem _ hx) hseen)
    simp only [dedupResources]
    rw [if_neg hc, ih]

theorem renameSubnets_out_good : ∀ (sns : List Subnet) (smap : List (String × String))
    (n : Nat), ∀ sn2 ∈ (renameSubnets sns smap n).1, GoodId sn2.id
  | [], _, _ => by simp [renameSubnets]
  | sn :: rest, smap, n => by
    intro sn2 h2
    simp only [renameSubnets] at h2
    rcases List.mem_cons.1 h2 with rfl | h3
    · exact ensureId_out_good sn.id n
    · exact renameSubnets_out_good rest _ _ sn2 h3

theorem renameSubnets_smap_good : ∀ (sns : List Subnet) (smap : List (String × String))
    (n : Nat), (∀ e ∈ smap, GoodId e.2) → ∀ e ∈ (renameSubnets sns smap n).2.1, GoodId e.2
  | [], _, _, h => h
  | sn :: rest, smap, n, h => by
    intro e he
    simp only [renameSubnets] at he
    refine renameSubnets_smap_good rest _ _ ?_ e he
    intro e2 he2
    by_cases hc : sn.id ≠ "" ∧ sn.id ≠ (ensureId sn.id n).1
    · rw [if_pos hc] at he2
      rcases List.mem_cons.1 he2 with rfl | h3
      · exact ensureId_out_good sn.id n
      · exact h e2 h3
    · rw [if_neg hc] at he2
      exact h e2 he2

theorem renameVnets_out_good : ∀ (vs : List VNet) (vmap smap : List (String × String))
    (n : Nat), ∀ v2 ∈ (renameVnets vs vmap smap n).1,
      GoodId v2.id ∧ ∀ sn ∈ v2.subnets, GoodId sn.id
  | [], _, _, _ => by simp [renameVnets]
  | v :: rest, vmap, smap, n => by
    intro v2 h2
    simp only [renameVnets] at h2
    rcases List.mem_cons.1 h2 with rfl | h3
    · exact ⟨ensureId_out_good v.id n, renameSubnets_out_good v.subnets smap _⟩
    · exact renameVnets_out_good rest _ _ _ v2 h3

theorem renameVnets_vmap_good : ∀ (vs : List VNet) (vmap smap : List (String × String))
    (n : Nat), (∀ e ∈ vmap, GoodId e.2) → ∀ e ∈ (renameVnets vs vmap smap n).2.1, GoodId e.2
  | [], _, _, _, h => h
  | v :: rest, vmap, smap, n, h => by
    intro e he
    simp only [renameVnets] at he
    refine renameVnets_vmap_good rest _ _ _ ?_ e he
    intro e2 he2
    by_cases hc : v.id ≠ "" ∧ v.id ≠ (ensureId v.id n).1
    · rw [if_pos hc] at he2
      rcases List.mem_cons.1 he2 with rfl | h3
      · exact ensureId_out_good v.id n
      · exact h e2 h3
    · rw [if_neg hc] at he2
      exact h e2 he2

theorem renameVnets_smap_good : ∀ (vs : List VNet) (vmap smap : List (String × String))
    (n : Nat), (∀ e ∈ smap, GoodId e.2) → ∀ e ∈ (renameVnets vs vmap smap n).2.2.1, GoodId e.2
  | [], _, _, _, h => h
  | v :: rest, vmap, smap, n, h => by
    intro e he
    simp only [renameVnets] at he
    exact renameVnets_smap_good rest _ _ _
      (renameSubnets_smap_good v.subnets smap _ h) e he

theorem renameVnets_length : ∀ (vs : List VNet) (vmap smap : List (String × String))
    (n : Nat), (renameVnets vs vmap smap n).1.length = vs.length
  | [], _, _, _ => rfl
  | v :: rest, vmap, smap, n => by
    simp only [renameVnets, List.length_cons]
    rw [renameVnets_length rest _ _ _]

theorem aggVnets_nil_hub (m : Model) (h : aggVnets m = []) : m.hub = none := by
  unfold aggVnets at h
  split at h
  · rename_i hc
    exact absurd h hc
  · split at h
    · rename_i hc2
      rcases List.append_eq_nil.1 h with ⟨hh, hsp⟩
      rcases hc2 with hx | hx
      · exact absurd hh hx
      · exact absurd hsp hx
    · cases hm : m.hub with
      | none => rfl
      | some x =>
        rw [hm] at h
        simp at h

theorem selectHub_isSome (hub0 : Option VNet) (av hubsArr spokesArr : List VNet) (n : Nat) :
    ((selectHub hub0 av hubsArr spokesArr n).1).isSome = true := by
  unfold selectHub
  split
  · rename_i hne
    cases hubsArr with
    | nil => exact absurd rfl hne
    | cons a l => rfl
  · cases hub0 with
    | some h => rfl
    | none => rfl

theorem selectHub_head2 (hub0 : Option VNet) (av hubsArr spokesArr : List VNet) (n : Nat) :
    ((selectHub hub0 av hubsArr spokesArr n).2.1).head?
      = (selectHub hub0 av hubsArr spokesArr n).1
    ∨ (selectHub hub0 av hubsArr spokesArr n).2.1 = [] := by
  unfold selectHub
  split
  · exact Or.inl rfl
  · rename_i hne
    cases hub0 with
    | some h => exact Or.inr (not_ne_iff.1 hne)
    | none => exact Or.inl rfl

theorem selectHub_vnets_of_some (hub0 : Option VNet) (av hubsArr spokesArr : List VNet)
    (n : Nat) (hsome : hub0.isSome = true) :
    (selectHub hub0 av hubsArr spokesArr n).2.2.1 = av := by
  unfold selectHub
  split
  · rfl
  · cases hub0 with
    | some h => rfl
    | none => cases hsome

theorem selectHub_hubs_of_some (hub0 : Option VNet) (av hubsArr spokesArr : List VNet)
    (n : Nat) (hsome : hub0.isSome = true) :
    (selectHub hub0 av hubsArr spokesArr n).2.1 = hubsArr := by
  unfold selectHub
  split
  · rfl
  · cases hub0 with
    | some h => rfl
    | none => cases hsome

theorem selectHub_hub_of_some (hub0 : Option VNet) (av hubsArr spokesArr : List VNet)
    (n : Nat) (h0 : VNet) (hsome : hub0 = some h0) :
    (selectHub hub0 av hubsArr spokesArr n).1
      = (if hubsArr ≠ [] then hubsArr.head? else some h0) := by
  unfold selectHub
  split
  · rfl
  · rw [hsome]

theorem selectHub_ne_nil (hub0 : Option VNet) (av hubsArr spokesArr : List VNet) (n : Nat)
    (hsub : hubsArr ≠ [] → av ≠ []) (hsome : ∀ h0, hub0 = some h0 → av ≠ []) :
    (selectHub hub0 av hubsArr spokesArr n).2.2.1 ≠ [] := by
  unfold selectHub
  split
  · rename_i hne
    exact hsub hne
  · cases hub0 with
    | some h0 => exact hsome h0 rfl
    | none => simp

theorem selectHub_good (hub0 : Option VNet) (av hubsArr spokesArr : List VNet) (n : Nat)
    (hg : ∀ v ∈ av, GoodId v.id ∧ ∀ sn ∈ v.subnets, GoodId sn.id)
    (hsp : ∀ v ∈ spokesArr, v ∈ av) :
    ∀ v ∈ (selectHub hub0 av hubsArr spokesArr n).2.2.1,
      GoodId v.id ∧ ∀ sn ∈ v.subnets, GoodId sn.id := by
  unfold selectHub
  split
  · exact hg
  · cases hub0 with
    | some h => exact hg
    | none =>
      intro v hv
      rcases List.mem_cons.1 hv with rfl | h3
      · refine ⟨ensureId_out_good "hub" n, ?_⟩
        intro sn hsn
        exact absurd hsn (List.not_mem_nil sn)
      · exact hg v (hsp v h3)

theorem filter_spoke_hub_nil (av : List VNet) :
    (av.filter (fun v => v.kind == "spoke")).filter (fun v => v.kind == "hub") = [] := by
  rw [List.filter_filter, List.filter_eq_nil_iff]
  intro a _
  simp only [Bool.and_eq_true, beq_iff_eq]
  rintro ⟨h1, h2⟩
  rw [h2] at h1
  exact absurd h1 (by decide)

theorem selectHub_filter_hub (hub0 : Option VNet) (av : List VNet) (n : Nat) :
    ((selectHub hub0 av (av.filter (fun v => v.kind == "hub"))
      (av.filter (fun v => v.kind == "spoke")) n).2.2.1).filter (fun v => v.kind == "hub")
    = (selectHub hub0 av (av.filter (fun v => v.kind == "hub"))
      (av.filter (fun v => v.kind == "spoke")) n).2.1 := by
  unfold selectHub
  split
  · rfl
  · cases hub0 with
    | some h => rfl
    | none =>
      show ({ id := (ensureId "hub" n).1, label := "Hub", cidr := "10.0.0.0/16",
              kind := "hub", subnets := [] } : VNet)
          :: (List.filter (fun v => v.kind == "hub")
              (List.filter (fun v => v.kind == "spoke") av)) = _
      rw [filter_spoke_hub_nil]

theorem selectHub_filter_spoke (hub0 : Option VNet) (av : List VNet) (n : Nat) :
    ((selectHub hub0 av (av.filter (fun v => v.kind == "hub"))
      (av.filter (fun v => v.kind == "spoke")) n).2.2.1).filter (fun v => v.kind == "spoke")
    = av.filter (fun v => v.kind == "spoke") := by
  unfold selectHub
  split
  · rfl
  · cases hub0 with
    | some h => rfl
    | none =>
      show List.filter (fun v => v.kind == "spoke")
          (List.filter (fun v => v.kind == "spoke") av)
        = List.filter (fun v => v.kind == "spoke") av
      rw [List.filter_filter]
      apply List.filter_congr
      intro a _
      by_cases ha : a.kind == "spoke"
      · simp [ha]
      · simp [ha]

/-- The rename step of the aggregation phase (`normalize.ts` 126–136). -/
def rvOf (m : Model) : List VNet × List (String × String) × List (String × String) × Nat :=
  renameVnets (aggVnets m) [] [] 0

/-- The single-hub candidate before `selectHub` (`normalize.ts` 169–172). -/
def hub0Of (m : Model) : Option VNet :=
  if isCase3 m then (rvOf m).1.head? else m.hub

/-- The peering remap step (`normalize.ts` 139–145). -/
def peOf (m : Model) : List Peering × Nat :=
  if m.peerings ≠ [] then remapPeerings m.peerings (rvOf m).2.1 (rvOf m).2.2.2
  else (m.peerings, (rvOf m).2.2.2)

/-- The resource reference remap step (`normalize.ts` 148–159). -/
def rrOf (m : Model) : List Resource × Nat :=
  remapResourceRefs m.resources (rvOf m).2.2.1 (rvOf m).2.1 (peOf m).2

/-- The hub selection step (`normalize.ts` 169–183). -/
def selOf (m : Model) : Option VNet × List VNet × List VNet × Nat :=
  selectHub (hub0Of m) (rvOf m).1
    ((rvOf m).1.filter (fun v => v.kind == "hub"))
    ((rvOf m).1.filter (fun v => v.kind == "spoke")) (rrOf m).2

theorem aggregateStage_def (m : Model) : aggregateStage m
    = ((selOf m).1, (selOf m).2.1, (selOf m).2.2.1,
       (rvOf m).1.filter (fun v => v.kind == "spoke"), (peOf m).1, (rrOf m).1,
       (selOf m).2.2.2) := rfl

theorem aggregateStage_isSome (m : Model) : ((aggregateStage m).1).isSome = true :=
  selectHub_isSome (hub0Of m) (rvOf m).1
    ((rvOf m).1.filter (fun v => v.kind == "hub"))
    ((rvOf m).1.filter (fun v => v.kind == "spoke")) (rrOf m).2

theorem aggregateStage_head (m : Model) (hne : (aggregateStage m).2.1 ≠ []) :
    ((aggregateStage m).2.1).head? = (aggregateStage m).1 := by
  rcases selectHub_head2 (hub0Of m) (rvOf m).1
      ((rvOf m).1.filter (fun v => v.kind == "hub"))
      ((rvOf m).1.filter (fun v => v.kind == "spoke")) (rrOf m).2 with h | h
  · exact h
  · exact absurd h hne

theorem aggregateStage_filter_hub (m : Model) :
    ((aggregateStage m).2.2.1).filter (fun v => v.kind == "hub") = (aggregateStage m).2.1 :=
  selectHub_filter_hub (hub0Of m) (rvOf m).1 (rrOf m).2

theorem aggregateStage_filter_spoke (m : Model) :
    ((aggregateStage m).2.2.1).filter (fun v => v.kind == "spoke")
      = (aggregateStage m).2.2.2.1 :=
  selectHub_filter_spoke (hub0Of m) (rvOf m).1 (rrOf m).2

theorem aggregateStage_good (m : Model) :
    ∀ v ∈ (aggregateStage m).2.2.1, GoodId v.id ∧ ∀ sn ∈ v.subnets, GoodId sn.id :=
  selectHub_good (hub0Of m) (rvOf m).1
    ((rvOf m).1.filter (fun v => v.kind == "hub"))
    ((rvOf m).1.filter (fun v => v.kind == "spoke")) (rrOf m).2
    (renameVnets_out_good (aggVnets m) [] [] 0)
    (fun _ hv => List.mem_of_mem_filter hv)

theorem aggregateStage_vnets_ne (m : Model) : (aggregateStage m).2.2.1 ≠ [] := by
  refine selectHub_ne_nil (hub0Of m) (rvOf m).1
      ((rvOf m).1.filter (fun v => v.kind == "hub"))
      ((rvOf m).1.filter (fun v => v.kind == "spoke")) (rrOf m).2 ?_ ?_
  · intro hne hnil
    rw [hnil] at hne
    simp at hne
  · intro h0 h0eq hnil
    have hagn : aggVnets m = [] := by
      have hlen : (rvOf m).1.length = (aggVnets m).length :=
        renameVnets_length (aggVnets m) [] [] 0
      rw [hnil] at hlen
      exact List.length_eq_zero.1 hlen.symm
    have hhub := aggVnets_nil_hub m hagn
    unfold hub0Of at h0eq
    by_cases hc : isCase3 m = true
    · rw [if_pos hc, hnil] at h0eq
      simp at h0eq
    · rw [if_neg hc, hhub] at h0eq
      cases h0eq

theorem aggregateStage_peer_good (m : Model) :
    ∀ p ∈ (aggregateStage m).2.2.2.2.1, GoodId p.fromVnetId ∧ GoodId p.toVnetId := by
  intro p hp
  have hp2 : p ∈ (peOf m).1 := hp
  unfold peOf at hp2
  by_cases hc : m.peerings ≠ []
  · rw [if_pos hc] at hp2
    exact remapPeerings_out_good (rvOf m).2.1
      (renameVnets_vmap_good (aggVnets m) [] [] 0
        (fun e he => absurd he (List.not_mem_nil e)))
      m.peerings (rvOf m).2.2.2 p hp2
  · rw [if_neg hc] at hp2
    have hnil : m.peerings = [] := not_ne_iff.1 hc
    rw [hnil] at hp2
    exact absurd hp2 (List.not_mem_nil p)

theorem aggregateStage_res_good (m : Model) :
    ∀ r2 ∈ (aggregateStage m).2.2.2.2.2.1, ∃ r ∈ m.resources,
      r2.id = r.id ∧ r2.rtype = r.rtype ∧ r2.label = r.label ∧
      (r2.subnetId = "" ∨ GoodId r2.subnetId) ∧
      (∀ lk ∈ r2.links, GoodId lk ∨ lk ∈ r.links) := by
  intro r2 h2
  have h3 : r2 ∈ (rrOf m).1 := h2
  unfold rrOf at h3
  exact remapRR_char (rvOf m).2.2.1 (rvOf m).2.1
    (renameVnets_smap_good (aggVnets m) [] [] 0
      (fun e he => absurd he (List.not_mem_nil e)))
    (renameVnets_vmap_good (aggVnets m) [] [] 0
      (fun e he => absurd he (List.not_mem_nil e)))
    m.resources (peOf m).2 r2 h3

theorem model_ext {a b : Model} (h1 : a.region = b.region) (h2 : a.vnets = b.vnets)
    (h3 : a.hubs = b.hubs) (h4 : a.hub = b.hub) (h5 : a.spokes = b.spokes)
    (h6 : a.peerings = b.peerings) (h7 : a.edges = b.edges)
    (h8 : a.resources = b.resources) (h9 : a.notes = b.notes) : a = b := by
  cases a
  cases b
  congr 1

theorem hubStages_off (fl : Flags) (hubs0 : List VNet) (hv : fl.vpn = false)
    (hf : fl.firewall = false) (hb : fl.bastion = false) :
    hubStages fl hubs0 = (hubs0, []) := by
  simp [hubStages, hv, hf, hb]

theorem wafStage_off (fl : Flags) (spokes0 : List VNet) (hw : fl.waf = false) :
    wafStage fl spokes0 = (spokes0, [], []) := by
  simp [wafStage, hw]

theorem spokesFinal_off (mp : Model) (fl : Flags) (hw : fl.waf = false)
    (hf : fl.firewall = false) : spokesFinal mp fl = mp.spokes := by
  simp [spokesFinal, wafStage, hw, hf]

theorem pzRes_off (mp : Model) (fl : Flags) (hsql : fl.privateEndpointSql = false)
    (hst : fl.privateEndpointStorage = false) (hkv : fl.privateEndpointKeyVault = false) :
    pzRes mp fl = (mp.resources, []) := by
  simp [pzRes, zonesOf, hsql, hst, hkv, pdzFold]

theorem udRes_off2 (mp : Model) (fl : Flags) (hf : fl.firewall = false)
    (hsql : fl.privateEndpointSql = false) (hst : fl.privateEndpointStorage = false)
    (hkv : fl.privateEndpointKeyVault = false) :
    udRes mp fl = (mp.resources, [], []) := by
  simp [udRes, hf, pzRes_off mp fl hsql hst hkv]

theorem pipNeededOf_off (mp : Model) (fl : Flags) (hf : fl.firewall = false)
    (hsql : fl.privateEndpointSql = false) (hst : fl.privateEndpointStorage = false)
    (hkv : fl.privateEndpointKeyVault = false)
    (hag : hasType mp.resources "AppGateway" = false) : pipNeededOf mp fl = false := by
  simp [pipNeededOf, udRes_off2 mp fl hf hsql hst hkv, hag]

theorem resFinal_off2 (mp : Model) (fl : Flags) (hf : fl.firewall = false)
    (hsql : fl.privateEndpointSql = false) (hst : fl.privateEndpointStorage = false)
    (hkv : fl.privateEndpointKeyVault = false)
    (hag : hasType mp.resources "AppGateway" = false) : resFinal mp fl = mp.resources := by
  rw [resFinal_off mp fl hf hsql hst hkv]
  rw [pipNeededOf_off mp fl hf hsql hst hkv hag]
  simp

theorem enforce_hubs_off (mp : Model) (fl : Flags) (hv : fl.vpn = false)
    (hf : fl.firewall = false) (hb : fl.bastion = false) :
    (enforceAzureInvariants mp fl).1.hubs = mp.hubs := by
  show (if mp.hubs ≠ [] then (hubStages fl (enfHubs mp)).1 else mp.hubs) = mp.hubs
  rw [hubStages_off fl (enfHubs mp) hv hf hb]
  by_cases hmh : mp.hubs ≠ []
  · rw [if_pos hmh]
    exact enfHubs_of_ne hmh
  · rw [if_neg hmh]

theorem enforce_hub_off (mp : Model) (fl : Flags) (hv : fl.vpn = false)
    (hf : fl.firewall = false) (hb : fl.bastion = false) :
    (enforceAzureInvariants mp fl).1.hub = mp.hub := by
  show (if mp.hubs ≠ [] then mp.hub else (hubStages fl (enfHubs mp)).1.head?) = mp.hub
  rw [hubStages_off fl (enfHubs mp) hv hf hb]
  by_cases hmh : mp.hubs ≠ []
  · rw [if_pos hmh]
  · rw [if_neg hmh]
    rw [enfHubs_of_nil (not_ne_iff.1 hmh)]
    cases mp.hub <;> rfl

theorem enforce_spokes_off (mp : Model) (fl : Flags) (hw : fl.waf = false)
    (hf : fl.firewall = false) :
    (enforceAzureInvariants mp fl).1.spokes = mp.spokes := by
  show spokesFinal mp fl = mp.spokes
  exact spokesFinal_off mp fl hw hf

theorem enforce_resources_off (mp : Model) (fl : Flags) (hf : fl.firewall = false)
    (hsql : fl.privateEndpointSql = false) (hst : fl.privateEndpointStorage = false)
    (hkv : fl.privateEndpointKeyVault = false)
    (hag : hasType mp.resources "AppGateway" = false) :
    (enforceAzureInvariants mp fl).1.resources = mp.resources := by
  show resFinal mp fl = mp.resources
  exact resFinal_off2 mp fl hf hsql hst hkv hag

theorem enforce_warnings_off (mp : Model) (fl : Flags) (hw : fl.waf = false)
    (hv : fl.vpn = false) (hf : fl.firewall = false) (hb : fl.bastion = false)
    (hsql : fl.privateEndpointSql = false) (hst : fl.privateEndpointStorage = false)
    (hkv : fl.privateEndpointKeyVault = false) :
    (enforceAzureInvariants mp fl).2.warnings = [] := by
  simp only [enforceAzureInvariants]
  simp [hv, hf, hb, hw, wafStage_off fl mp.spokes hw, needsPDZb, hsql, hst, hkv,
    udRes_off2 mp fl hf hsql hst hkv]

theorem enforce_fixes_off (mp : Model) (fl : Flags) (hw : fl.waf = false)
    (hv : fl.vpn = false) (hf : fl.firewall = false) (hb : fl.bastion = false)
    (hsql : fl.privateEndpointSql = false) (hst : fl.privateEndpointStorage = false)
    (hkv : fl.privateEndpointKeyVault = false)
    (hag : hasType mp.resources "AppGateway" = false) :
    (enforceAzureInvariants mp fl).2.fixes = [] := by
  simp only [enforceAzureInvariants]
  simp [hubStages_off fl (enfHubs mp) hv hf hb, wafStage_off fl mp.spokes hw,
    pzRes_off mp fl hsql hst hkv, udRes_off2 mp fl hf hsql hst hkv,
    pipNeededOf_off mp fl hf hsql hst hkv hag]

theorem regionOf_stable (m m2 : Model) (opts : Options)
    (h : m2.region = regionOf m opts) : regionOf m2 opts = m2.region := by
  unfold regionOf at h ⊢
  cases hp : opts.preferredRegion with
  | some r =>
    rw [hp] at h
    rw [h]
  | none =>
    rw [hp] at h
    cases hm : m.region with
    | some x =>
      rw [hm] at h
      rw [h]
    | none =>
      rw [hm] at h
      rw [h]

theorem normalize_off (m : Model) (opts : Options)
    (hw : opts.enforceWaf = false) (hv : opts.enforceVpn = false)
    (hf : opts.enforceFirewall = false) (hb : opts.enforceBastion = false)
    (hsql : opts.enforcePE.sql = false) (hst : opts.enforcePE.storage = false)
    (hkv : opts.enforcePE.kv = false)
    (hag : hasType (mPreOf m opts).resources "AppGateway" = false) :
    normalizeModel m opts = mPreOf m opts := by
  have hw2 : (flagsOfOptions opts).waf = false := hw
  have hv2 : (flagsOfOptions opts).vpn = false := hv
  have hf2 : (flagsOfOptions opts).firewall = false := hf
  have hb2 : (flagsOfOptions opts).bastion = false := hb
  have hsql2 : (flagsOfOptions opts).privateEndpointSql = false := hsql
  have hst2 : (flagsOfOptions opts).privateEndpointStorage = false := hst
  have hkv2 : (flagsOfOptions opts).privateEndpointKeyVault = false := hkv
  apply model_ext
  · rfl
  · show (aggregateStage m).2.2.1.map (vnetApply (flagsOfOptions opts))
      = (mPreOf m opts).vnets
    rw [show vnetApply (flagsOfOptions opts) = id from
      funext (vnetApply_off (flagsOfOptions opts) hw2 hv2 hf2 hb2), List.map_id]
    rfl
  · show (enforceAzureInvariants (mPreOf m opts) (flagsOfOptions opts)).1.hubs
      = (mPreOf m opts).hubs
    exact enforce_hubs_off (mPreOf m opts) (flagsOfOptions opts) hv2 hf2 hb2
  · show (if (aggregateStage m).2.1 ≠ [] then
        (enforceAzureInvariants (mPreOf m opts) (flagsOfOptions opts)).1.hubs.head?
      else (enforceAzureInvariants (mPreOf m opts) (flagsOfOptions opts)).1.hub)
      = (mPreOf m opts).hub
    rw [enforce_hubs_off (mPreOf m opts) (flagsOfOptions opts) hv2 hf2 hb2,
      enforce_hub_off (mPreOf m opts) (flagsOfOptions opts) hv2 hf2 hb2]
    by_cases hne : (aggregateStage m).2.1 ≠ []
    · rw [if_pos hne]
      exact aggregateStage_head m hne
    · rw [if_neg hne]
  · show (enforceAzureInvariants (mPreOf m opts) (flagsOfOptions opts)).1.spokes
      = (mPreOf m opts).spokes
    exact enforce_spokes_off (mPreOf m opts) (flagsOfOptions opts) hw2 hf2
  · rfl
  · rfl
  · show (enforceAzureInvariants (mPreOf m opts) (flagsOfOptions opts)).1.resources
      = (mPreOf m opts).resources
    exact enforce_resources_off (mPreOf m opts) (flagsOfOptions opts) hf2 hsql2 hst2 hkv2 hag
  · show (enforceAzureInvariants (mPreOf m opts) (flagsOfOptions opts)).1.notes
      ++ ((enforceAzureInvariants (mPreOf m opts) (flagsOfOptions opts)).2.fixes.map
            (fun s => "fix: " ++ s))
      ++ ((enforceAzureInvariants (mPreOf m opts) (flagsOfOptions opts)).2.warnings.map
            (fun s => "warn: " ++ s))
      = (mPreOf m opts).notes
    rw [enforce_fixes_off (mPreOf m opts) (flagsOfOptions opts) hw2 hv2 hf2 hb2 hsql2
      hst2 hkv2 hag,
      enforce_warnings_off (mPreOf m opts) (flagsOfOptions opts) hw2 hv2 hf2 hb2 hsql2
      hst2 hkv2]
    simp only [List.map_nil, List.append_nil]
    rfl

theorem resourcesStage_off (opts : Options) (rs : List Resource) (n : Nat)
    (hw : opts.enforceWaf = false) (hv : opts.enforceVpn = false)
    (hsql : opts.enforcePE.sql = false) (hst : opts.enforcePE.storage = false)
    (hkv : opts.enforcePE.kv = false) :
    resourcesStage opts rs n = dedupResources (retypeResources rs n).1 [] := by
  unfold resourcesStage applyEnforcedResources res4Of res5Of res6Of res7Of res8Of
  simp [hw, hv, hsql, hst, hkv]

theorem mPre_res_facts (m : Model) (opts : Options)
    (hw : opts.enforceWaf = false) (hv : opts.enforceVpn = false)
    (hsql : opts.enforcePE.sql = false) (hst : opts.enforcePE.storage = false)
    (hkv : opts.enforcePE.kv = false)
    (hag : ∀ r ∈ m.resources, normType r.rtype ≠ "AppGateway")
    (hns : ∀ r ∈ m.resources, normType r.rtype ≠ "NetworkSecurityGroup")
    (hlk : ∀ r ∈ m.resources, ∀ lk ∈ r.links, GoodId lk) :
    (∀ r2 ∈ (mPreOf m opts).resources,
       GoodId r2.id ∧ normType r2.rtype = r2.rtype ∧
       (r2.subnetId = "" ∨ GoodId r2.subnetId) ∧ (∀ lk ∈ r2.links, GoodId lk) ∧
       r2.rtype ≠ "AppGateway") ∧
    (((mPreOf m opts).resources.map resKey).Nodup) := by
  have hstage : (mPreOf m opts).resources
      = dedupResources (retypeResources (aggregateStage m).2.2.2.2.2.1
          (aggregateStage m).2.2.2.2.2.2).1 [] := by
    show resourcesStage opts (aggregateStage m).2.2.2.2.2.1
        (aggregateStage m).2.2.2.2.2.2 = _
    exact resourcesStage_off opts _ _ hw hv hsql hst hkv
  constructor
  · intro r2 h2
    rw [hstage] at h2
    have h3 := dedup_mem r2 h2
    obtain ⟨r1, hm1, hid1, hty1, _, hsub1, hlk1⟩ := retypeRR_char _ _ r2 h3
    obtain ⟨r0, hm0, _, hty0, _, hsub0, hlk0⟩ := aggregateStage_res_good m r1 hm1
    refine ⟨hid1, ?_, ?_, ?_, ?_⟩
    · rw [hty1, hty0]
      exact normType_idem_of r0.rtype (hns r0 hm0)
    · rw [hsub1]
      exact hsub0
    · intro lk hlkm
      rw [hlk1] at hlkm
      rcases hlk0 lk hlkm with hg | hmem
      · exact hg
      · exact hlk r0 hm0 lk hmem
    · rw [hty1, hty0]
      exact hag r0 hm0
  · rw [hstage]
    exact (dedup_keys _ _).1

/-- C1 counterexample input: a single App Gateway. -/
def mC1bad : Model := { resources := [{ id := "agw1", rtype := "AppGateway" }] }

/-- C1: `normalizeModel` is NOT idempotent in general.  With an App Gateway
present, the first pass adds a PublicIP labelled "PIP (AppGW)"; the second
pass re-types it to AppService (normType has no PublicIP keyword) and, since
the /agw/i label test fails, adds a second PublicIP plus a new `fix:` note. -/
theorem C1_counterexample :
    (normalizeModel (normalizeModel mC1bad {}) {}).resources
        ≠ (normalizeModel mC1bad {}).resources ∧
    ((normalizeModel mC1bad {}).notes.filter
        (fun s => s.data.take 5 == "fix: ".data)).length
      < ((normalizeModel (normalizeModel mC1bad {}) {}).notes.filter
        (fun s => s.data.take 5 == "fix: ".data)).length := by
  decide

set_option maxHeartbeats 4000000 in
set_option maxRecDepth 4000 in
/-- C1 (amended): when no enforcement option is requested, no input resource
normalizes to AppGateway or NetworkSecurityGroup, and all PrivateDnsZone-style
links are sanitizer-stable ids, `normalizeModel` is fully idempotent — in
particular resources, vnets (hence all subnet sets), edges and notes are
unchanged by a second pass, and no `fix:` note is added. -/
theorem C1_amended (m : Model) (opts : Options)
    (hw : opts.enforceWaf = false) (hv : opts.enforceVpn = false)
    (hf : opts.enforceFirewall = false) (hb : opts.enforceBastion = false)
    (hsql : opts.enforcePE.sql = false) (hst : opts.enforcePE.storage = false)
    (hkv : opts.enforcePE.kv = false)
    (hag : ∀ r ∈ m.resources, normType r.rtype ≠ "AppGateway")
    (hns : ∀ r ∈ m.resources, normType r.rtype ≠ "NetworkSecurityGroup")
    (hlk : ∀ r ∈ m.resources, ∀ lk ∈ r.links, GoodId lk) :
    normalizeModel (normalizeModel m opts) opts = normalizeModel m opts := by
  obtain ⟨hpt, hkeys⟩ := mPre_res_facts m opts hw hv hsql hst hkv hag hns hlk
  have hagP : hasType (mPreOf m opts).resources "AppGateway" = false :=
    hasType_eq_false_of _ _ (fun r hr => (hpt r hr).2.2.2.2)
  have hM1 := normalize_off m opts hw hv hf hb hsql hst hkv hagP
  rw [hM1]
  -- facts about the once-normalized model
  have hvne : (mPreOf m opts).vnets ≠ [] := aggregateStage_vnets_ne m
  have hvgood : ∀ v ∈ (mPreOf m opts).vnets,
      GoodId v.id ∧ ∀ sn ∈ v.subnets, GoodId sn.id := aggregateStage_good m
  have hhubsome : ((mPreOf m opts).hub).isSome = true := aggregateStage_isSome m
  obtain ⟨h0, hh0⟩ := Option.isSome_iff_exists.1 hhubsome
  have hagg2 : aggVnets (mPreOf m opts) = (mPreOf m opts).vnets := by
    unfold aggVnets
    rw [if_pos hvne]
  have hrv2 : rvOf (mPreOf m opts) = ((mPreOf m opts).vnets, [], [], 0) := by
    show renameVnets (aggVnets (mPreOf m opts)) [] [] 0 = _
    rw [hagg2]
    exact renameVnets_good (mPreOf m opts).vnets [] [] 0 hvgood
  have hc3 : isCase3 (mPreOf m opts) = false := by
    unfold isCase3
    rw [decide_eq_false_iff_not]
    rintro ⟨hv0, -⟩
    exact hvne hv0
  have hhub0 : hub0Of (mPreOf m opts) = some h0 := by
    unfold hub0Of
    rw [hc3]
    simp only [Bool.false_eq_true, if_false]
    exact hh0
  have hfh : (mPreOf m opts).vnets.filter (fun v => v.kind == "hub")
      = (mPreOf m opts).hubs := aggregateStage_filter_hub m
  have hfs : (mPreOf m opts).vnets.filter (fun v => v.kind == "spoke")
      = (mPreOf m opts).spokes := aggregateStage_filter_spoke m
  have hpgood : ∀ p ∈ (mPreOf m opts).peerings,
      GoodId p.fromVnetId ∧ GoodId p.toVnetId := aggregateStage_peer_good m
  have hrr2 : (aggregateStage (mPreOf m opts)).2.2.2.2.2.1 = (mPreOf m opts).resources := by
    show (rrOf (mPreOf m opts)).1 = (mPreOf m opts).resources
    unfold rrOf
    simp only [hrv2]
    rw [remapRR_nil_id (mPreOf m opts).resources (peOf (mPreOf m opts)).2
      (fun r hr => ⟨(hpt r hr).2.2.1, fun _ => (hpt r hr).2.2.2.1⟩)]
  have hres2eq : resourcesStage opts (aggregateStage (mPreOf m opts)).2.2.2.2.2.1
      (aggregateStage (mPreOf m opts)).2.2.2.2.2.2 = (mPreOf m opts).resources := by
    rw [hrr2]
    rw [resourcesStage_off opts _ _ hw hv hsql hst hkv]
    rw [retypeResources_id_of _ _ (fun r hr => ⟨(hpt r hr).1, (hpt r hr).2.1⟩)]
    exact dedup_id_of _ _ hkeys (fun r _ => List.not_mem_nil (resKey r))
  have hag2 : hasType (mPreOf (mPreOf m opts) opts).resources "AppGateway" = false := by
    show hasType (resourcesStage opts (aggregateStage (mPreOf m opts)).2.2.2.2.2.1
        (aggregateStage (mPreOf m opts)).2.2.2.2.2.2) "AppGateway" = false
    rw [hres2eq]
    exact hagP
  rw [normalize_off (mPreOf m opts) opts hw hv hf hb hsql hst hkv hag2]
  apply model_ext
  · show regionOf (mPreOf m opts) opts = (mPreOf m opts).region
    exact regionOf_stable m (mPreOf m opts) opts rfl
  · show (aggregateStage (mPreOf m opts)).2.2.1 = (mPreOf m opts).vnets
    show (selOf (mPreOf m opts)).2.2.1 = (mPreOf m opts).vnets
    unfold selOf
    rw [hrv2, hhub0]
    exact selectHub_vnets_of_some (some h0) _ _ _ _ rfl
  · show (aggregateStage (mPreOf m opts)).2.1 = (mPreOf m opts).hubs
    show (selOf (mPreOf m opts)).2.1 = (mPreOf m opts).hubs
    unfold selOf
    rw [hrv2, hhub0]
    rw [selectHub_hubs_of_some (some h0) _ _ _ _ rfl]
    exact hfh
  · show (aggregateStage (mPreOf m opts)).1 = (mPreOf m opts).hub
    show (selOf (mPreOf m opts)).1 = (mPreOf m opts).hub
    unfold selOf
    rw [hrv2, hhub0]
    rw [selectHub_hub_of_some (some h0) _ _ _ _ h0 rfl]
    rw [hfh]
    by_cases hne : (mPreOf m opts).hubs ≠ []
    · rw [if_pos hne]
      exact aggregateStage_head m hne
    · rw [if_neg hne]
      exact hh0.symm
  · show (aggregateStage (mPreOf m opts)).2.2.2.1 = (mPreOf m opts).spokes
    show (rvOf (mPreOf m opts)).1.filter (fun v => v.kind == "spoke")
        = (mPreOf m opts).spokes
    simp only [hrv2]
    exact hfs
  · show (aggregateStage (mPreOf m opts)).2.2.2.2.1 = (mPreOf m opts).peerings
    show (peOf (mPreOf m opts)).1 = (mPreOf m opts).peerings
    unfold peOf
    by_cases hp : (mPreOf m opts).peerings ≠ []
    · rw [if_pos hp]
      simp only [hrv2]
      rw [remapPeerings_nil_id (mPreOf m opts).peerings 0 hpgood]
    · rw [if_neg hp]
  · show autoWireEdges (resourcesStage opts (aggregateStage (mPreOf m opts)).2.2.2.2.2.1
        (aggregateStage (mPreOf m opts)).2.2.2.2.2.2) [] = (mPreOf m opts).edges
    rw [hres2eq]
    rfl
  · show resourcesStage opts (aggregateStage (mPreOf m opts)).2.2.2.2.2.1
        (aggregateStage (mPreOf m opts)).2.2.2.2.2.2 = (mPreOf m opts).resources
    exact hres2eq
  · rfl

/-- Concrete witness input for the amended C1. -/
def mC1w : Model :=
  { vnets := [{ id := "h1", kind := "hub",
                subnets := [{ id := "s1", cidr := "10.0.0.0/24" }] },
              { id := "sp1", kind := "spoke" }],
    peerings := [{ fromVnetId := "h1", toVnetId := "sp1" }],
    resources := [{ id := "r1", rtype := "AppService", subnetId := "s1" },
                  { id := "r2", rtype := "SqlDb" }] }

theorem C1_amended_witness :
    normalizeModel (normalizeModel mC1w {}) {} = normalizeModel mC1w {} :=
  C1_amended mC1w {} rfl rfl rfl rfl rfl rfl rfl (by decide) (by decide) (by decide)

end AzureArch










